import Mathlib

/-!
Verification of the BLE command-gateway core: envelope codec, command
registry/dispatcher, provisioning coordinator, client write-mode negotiator
and status poller.  Python strings are modelled as `List Char`, byte strings
as `List Nat`, JSON values as the inductive `Json`, and the asynchronous
parts as explicit outcome/event traces.
-/

set_option maxRecDepth 20000

abbrev Str := List Char

/-- Characters stripped by the Python `str.strip()` default (ASCII whitespace). -/
def pyIsSpace (c : Char) : Bool :=
  c = ' ' || c = '\t' || c = '\n' || c = '\r' || c = '\x0b' || c = '\x0c'

/-- Model of Python `str.strip()`: drop whitespace from both ends. -/
def pyStrip (s : Str) : Str :=
  ((s.dropWhile pyIsSpace).reverse.dropWhile pyIsSpace).reverse

def digitChar (n : Nat) : Char := Char.ofNat (48 + n)

/-- Worker for `natDigits`; the fuel only drives the recursion and any
fuel above the input is enough. -/
def natDigitsGo : Nat → Nat → Str
  | 0, _ => []
  | fuel + 1, n =>
    if n < 10 then [digitChar n]
    else natDigitsGo fuel (n / 10) ++ [digitChar (n % 10)]

/-- Decimal digits of a natural number, most significant first
(the digit string Python produces for a nonnegative int). -/
def natDigits (n : Nat) : Str := natDigitsGo (n + 1) n

theorem natDigitsGo_congr : ∀ f g n, n < f → n < g → natDigitsGo f n = natDigitsGo g n := by
  intro f
  induction f with
  | zero => intro g n h _; omega
  | succ f ih =>
    intro g n hf hg
    cases g with
    | zero => omega
    | succ g =>
      by_cases h10 : n < 10
      · simp [natDigitsGo, h10]
      · have hdiv : n / 10 < n := Nat.div_lt_self (by omega) (by omega)
        simp only [natDigitsGo, if_neg h10]
        rw [ih g (n / 10) (by omega) (by omega)]

/-- The recursion equation of the Python-style decimal printer. -/
theorem natDigits_eq (n : Nat) :
    natDigits n = if n < 10 then [digitChar n] else natDigits (n / 10) ++ [digitChar (n % 10)] := by
  by_cases h10 : n < 10
  · simp [natDigits, natDigitsGo, h10]
  · have hdiv : n / 10 < n := Nat.div_lt_self (by omega) (by omega)
    simp only [natDigits, natDigitsGo, if_neg h10]
    rw [natDigitsGo_congr n (n / 10 + 1) (n / 10) (by omega) (by omega)]
    simp only [natDigitsGo]

/-- Decimal rendering of a Python int. -/
def intDigits (i : Int) : Str :=
  if i < 0 then '-' :: natDigits (-i).toNat else natDigits i.toNat

/-- UTF-8 encoding of one unicode scalar value. -/
def utf8EncodeChar (c : Char) : List Nat :=
  let v := c.toNat
  if v < 0x80 then [v]
  else if v < 0x800 then [0xC0 + v / 64, 0x80 + v % 64]
  else if v < 0x10000 then
    [0xE0 + v / 4096, 0x80 + v / 64 % 64, 0x80 + v % 64]
  else
    [0xF0 + v / 262144, 0x80 + v / 4096 % 64, 0x80 + v / 64 % 64, 0x80 + v % 64]

/-- Byte string of the UTF-8 encoding of a text (Python `str.encode("utf-8")`). -/
def utf8Encode (s : Str) : List Nat := (s.map utf8EncodeChar).flatten

def replacementChar : Char := Char.ofNat 0xFFFD

def isCont (b : Nat) : Bool := 0x80 ≤ b && b < 0xC0

/-- Worker for the UTF-8 decoder.  The fuel argument only drives the
recursion; one unit is spent per produced character, so any fuel at least
the byte count is enough and the wrapper below supplies it. -/
def utf8DecodeGo : Nat → List Nat → Str
  | 0, _ => []
  | _, [] => []
  | fuel + 1, b :: rest =>
    if b < 0x80 then Char.ofNat b :: utf8DecodeGo fuel rest
    else if b < 0xC2 then replacementChar :: utf8DecodeGo fuel rest
    else if b < 0xE0 then
      match rest with
      | b1 :: rest1 =>
        if isCont b1 then
          Char.ofNat ((b - 0xC0) * 64 + (b1 - 0x80)) :: utf8DecodeGo fuel rest1
        else replacementChar :: utf8DecodeGo fuel rest
      | [] => [replacementChar]
    else if b < 0xF0 then
      match rest with
      | b1 :: b2 :: rest2 =>
        if isCont b1 && isCont b2 then
          let v := (b - 0xE0) * 4096 + (b1 - 0x80) * 64 + (b2 - 0x80)
          if v < 0x800 || (0xD800 ≤ v && v < 0xE000) then
            replacementChar :: utf8DecodeGo fuel rest2
          else Char.ofNat v :: utf8DecodeGo fuel rest2
        else replacementChar :: utf8DecodeGo fuel rest
      | _ => [replacementChar]
    else if b < 0xF5 then
      match rest with
      | b1 :: b2 :: b3 :: rest3 =>
        if isCont b1 && isCont b2 && isCont b3 then
          let v := (b - 0xF0) * 262144 + (b1 - 0x80) * 4096 + (b2 - 0x80) * 64 + (b3 - 0x80)
          if v < 0x10000 || 0x110000 ≤ v then
            replacementChar :: utf8DecodeGo fuel rest3
          else Char.ofNat v :: utf8DecodeGo fuel rest3
        else replacementChar :: utf8DecodeGo fuel rest
      | _ => [replacementChar]
    else replacementChar :: utf8DecodeGo fuel rest

/-- Model of Python `bytes.decode("utf-8", errors="replace")`: valid sequences
decode to their scalar value, every ill-formed sequence is replaced by U+FFFD
and decoding continues - the function is total, it never fails. -/
def utf8DecodeReplace (bs : List Nat) : Str := utf8DecodeGo bs.length bs

example : utf8DecodeReplace [] = [] := rfl
example : utf8DecodeReplace [0xFF] = [replacementChar] := rfl
example : utf8DecodeReplace (utf8Encode ['a', '£', '€', '𝄞']) = ['a', '£', '€', '𝄞'] := by decide

theorem char_toNat_valid (c : Char) :
    c.toNat < 0xD800 ∨ (0xE000 ≤ c.toNat ∧ c.toNat < 0x110000) := by
  have h := c.valid
  simp [UInt32.isValidChar, Nat.isValidChar] at h
  simp [Char.toNat]
  omega

theorem utf8DecodeGo_encodeChar (c : Char) (rest : List Nat) (f : Nat) :
    utf8DecodeGo (f + 1) (utf8EncodeChar c ++ rest) = c :: utf8DecodeGo f rest := by
  have hval := char_toNat_valid c
  by_cases h1 : c.toNat < 0x80
  · simp [utf8EncodeChar, h1, utf8DecodeGo, Char.ofNat_toNat]
  · by_cases h2 : c.toNat < 0x800
    · simp only [utf8EncodeChar, if_neg h1, if_pos h2, List.cons_append, List.nil_append,
        utf8DecodeGo]
      rw [if_neg (by omega), if_neg (by omega), if_pos (by omega)]
      have hcont : isCont (0x80 + c.toNat % 64) = true := by
        simp [isCont]; omega
      simp only [hcont, if_pos]
      have hv : (0xC0 + c.toNat / 64 - 0xC0) * 64 + (0x80 + c.toNat % 64 - 0x80) = c.toNat := by
        omega
      rw [hv, Char.ofNat_toNat]
    · by_cases h3 : c.toNat < 0x10000
      · simp only [utf8EncodeChar, if_neg h1, if_neg h2, if_pos h3, List.cons_append,
          List.nil_append, utf8DecodeGo]
        rw [if_neg (by omega), if_neg (by omega), if_neg (by omega), if_pos (by omega)]
        have hcont : (isCont (0x80 + c.toNat / 64 % 64) && isCont (0x80 + c.toNat % 64)) = true := by
          simp [isCont]; omega
        simp only [hcont, if_pos]
        have hv : (0xE0 + c.toNat / 4096 - 0xE0) * 4096 + (0x80 + c.toNat / 64 % 64 - 0x80) * 64 +
            (0x80 + c.toNat % 64 - 0x80) = c.toNat := by
          omega
        simp only [hv]
        rw [if_neg (by simp only [Bool.or_eq_true, Bool.and_eq_true, decide_eq_true_eq]; omega),
          Char.ofNat_toNat]
      · simp only [utf8EncodeChar, if_neg h1, if_neg h2, if_neg h3, List.cons_append,
          List.nil_append, utf8DecodeGo]
        rw [if_neg (by omega), if_neg (by omega), if_neg (by omega), if_neg (by omega),
          if_pos (by omega)]
        have hcont : (isCont (0x80 + c.toNat / 4096 % 64) && (isCont (0x80 + c.toNat / 64 % 64) &&
            isCont (0x80 + c.toNat % 64))) = true := by
          simp [isCont]; omega
        simp only [Bool.and_assoc, hcont, if_pos]
        have hv : (0xF0 + c.toNat / 262144 - 0xF0) * 262144 + (0x80 + c.toNat / 4096 % 64 - 0x80) *
            4096 + (0x80 + c.toNat / 64 % 64 - 0x80) * 64 + (0x80 + c.toNat % 64 - 0x80)
            = c.toNat := by
          omega
        simp only [hv]
        rw [if_neg (by simp only [Bool.or_eq_true, Bool.and_eq_true, decide_eq_true_eq]; omega),
          Char.ofNat_toNat]

theorem utf8DecodeGo_nil (n : Nat) : utf8DecodeGo n [] = [] := by
  cases n <;> rfl

theorem utf8DecodeGo_encode (s : Str) (tail : List Nat) :
    ∀ fuel, s.length + tail.length ≤ fuel →
    utf8DecodeGo fuel (utf8Encode s ++ tail) = s ++ utf8DecodeGo (fuel - s.length) tail := by
  induction s with
  | nil => intro fuel hf; simp [utf8Encode]
  | cons c s ih =>
    intro fuel hf
    cases fuel with
    | zero => simp at hf
    | succ f =>
      have he : utf8Encode (c :: s) ++ tail = utf8EncodeChar c ++ (utf8Encode s ++ tail) := by
        simp [utf8Encode]
      rw [he, utf8DecodeGo_encodeChar, ih f (by simp at hf; omega)]
      have h2 : f + 1 - (c :: s).length = f - s.length := by simp
      rw [h2]
      simp

/-- Decoding the UTF-8 encoding of any text restores the text exactly. -/
theorem utf8DecodeReplace_encode (s : Str) : utf8DecodeReplace (utf8Encode s) = s := by
  have hpos : ∀ c : Char, 1 ≤ (utf8EncodeChar c).length := by
    intro c
    unfold utf8EncodeChar
    by_cases h1 : c.toNat < 128 <;> by_cases h2 : c.toNat < 2048 <;>
      by_cases h3 : c.toNat < 65536 <;> simp [h1, h2, h3]
  have hlen : s.length ≤ (utf8Encode s).length := by
    induction s with
    | nil => simp [utf8Encode]
    | cons c s ih =>
      simp only [utf8Encode, List.map_cons, List.flatten_cons, List.length_append,
        List.length_cons]
      simp only [utf8Encode] at ih
      have := hpos c
      omega
  have h := utf8DecodeGo_encode s [] (utf8Encode s).length (by simpa using hlen)
  simpa [utf8DecodeReplace, utf8DecodeGo_nil] using h

/-! ## JSON values

Model of the JSON universe handled by the codec (`json.dumps` /
`json.loads` with default separators and `ensure_ascii=False`).  Python
dicts are modelled as insertion-ordered association lists (`JFields`);
float literals are outside this model. -/

mutual
inductive Json where
  | str (s : Str)
  | jbool (b : Bool)
  | jint (n : Int)
  | jnull
  | obj (fields : JFields)
  | arr (items : JArr)
  deriving DecidableEq
inductive JFields where
  | nil
  | cons (key : Str) (value : Json) (rest : JFields)
  deriving DecidableEq
inductive JArr where
  | anil
  | acons (value : Json) (rest : JArr)
  deriving DecidableEq
end

/-- Python `dict.get`. -/
def JFields.get : JFields → Str → Option Json
  | .nil, _ => none
  | .cons k v rest, key => if k = key then some v else rest.get key

/-- Python `d[key] = val`: replace in place when the key exists,
append otherwise (insertion order is preserved). -/
def JFields.set : JFields → Str → Json → JFields
  | .nil, key, val => .cons key val .nil
  | .cons k v rest, key, val =>
    if k = key then .cons k val rest else .cons k v (rest.set key val)

def JFields.hasKey (fs : JFields) (key : Str) : Bool := (fs.get key).isSome

def JFields.append : JFields → JFields → JFields
  | .nil, gs => gs
  | .cons k v rest, gs => .cons k v (rest.append gs)

def hexDigitChar (n : Nat) : Char :=
  if n < 10 then digitChar n else Char.ofNat (97 + n - 10)

/-- Escape for one character inside a JSON string literal, as CPython's
encoder emits with `ensure_ascii=False`: quote, backslash and control
characters are escaped, everything else is passed through. -/
def jsonEscapeChar (c : Char) : Str :=
  if c = '"' then ['\\', '"']
  else if c = '\\' then ['\\', '\\']
  else if c = '\n' then ['\\', 'n']
  else if c = '\r' then ['\\', 'r']
  else if c = '\t' then ['\\', 't']
  else if c = '\x08' then ['\\', 'b']
  else if c = '\x0c' then ['\\', 'f']
  else if c.toNat < 0x20 then
    ['\\', 'u', '0', '0', hexDigitChar (c.toNat / 16), hexDigitChar (c.toNat % 16)]
  else [c]

def jsonEscape (s : Str) : Str := (s.map jsonEscapeChar).flatten

def jsonQuote (s : Str) : Str := '"' :: jsonEscape s ++ ['"']

mutual
/-- Model of `json.dumps` (text output, default separators `", "` and
`": "`, `ensure_ascii=False`). -/
def dumps : Json → Str
  | .str s => jsonQuote s
  | .jbool true => ['t', 'r', 'u', 'e']
  | .jbool false => ['f', 'a', 'l', 's', 'e']
  | .jint n => intDigits n
  | .jnull => ['n', 'u', 'l', 'l']
  | .obj fs => '\x7b' :: dumpsFields fs ++ ['\x7d']
  | .arr items => '[' :: dumpsArr items ++ [']']
def dumpsFields : JFields → Str
  | .nil => []
  | .cons k v .nil => jsonQuote k ++ [':', ' '] ++ dumps v
  | .cons k v (.cons k2 v2 rest) =>
    jsonQuote k ++ [':', ' '] ++ dumps v ++ [',', ' '] ++ dumpsFields (.cons k2 v2 rest)
def dumpsArr : JArr → Str
  | .anil => []
  | .acons v .anil => dumps v
  | .acons v (.acons v2 rest) => dumps v ++ [',', ' '] ++ dumpsArr (.acons v2 rest)
end

example :
    dumps (.obj (.cons "a".data (.jint 1) (.cons "b".data (.str "x\n".data) .nil)))
      = "\x7b\"a\": 1, \"b\": \"x\\n\"\x7d".data := by decide

/-! ## JSON parsing (model of `json.loads`)

A recursive-descent parser over the JSON grammar emitted by `dumps`
(objects, arrays, strings with escapes, integers, booleans, null).
Python specifics kept: objects are built by successive dict assignment
(late duplicate keys overwrite in place), trailing content fails.
Float syntax and surrogate escape pairs are outside the model. -/

def isJsonWs (c : Char) : Bool := c = ' ' || c = '\t' || c = '\n' || c = '\r'

def skipWs (s : Str) : Str := s.dropWhile isJsonWs

def isDigit10 (c : Char) : Bool := '0' ≤ c && c ≤ '9'

def hexVal (c : Char) : Option Nat :=
  if '0' ≤ c ∧ c ≤ '9' then some (c.toNat - 48)
  else if 'a' ≤ c ∧ c ≤ 'f' then some (c.toNat - 97 + 10)
  else if 'A' ≤ c ∧ c ≤ 'F' then some (c.toNat - 65 + 10)
  else none

/-- One step of the string-literal scanner, with `go` standing for the
recursive continuation (factored out so that proofs can unfold one step). -/
def psbStep (go : Str → Option (Str × Str)) (c : Char) (rest : Str) : Option (Str × Str) :=
  if c = '"' then some ([], rest)
  else if c = '\\' then
    match rest with
    | [] => none
    | e :: rest1 =>
      if e = '"' then (go rest1).map (fun p => ('"' :: p.1, p.2))
      else if e = '\\' then (go rest1).map (fun p => ('\\' :: p.1, p.2))
      else if e = '/' then (go rest1).map (fun p => ('/' :: p.1, p.2))
      else if e = 'n' then (go rest1).map (fun p => ('\n' :: p.1, p.2))
      else if e = 'r' then (go rest1).map (fun p => ('\r' :: p.1, p.2))
      else if e = 't' then (go rest1).map (fun p => ('\t' :: p.1, p.2))
      else if e = 'b' then (go rest1).map (fun p => ('\x08' :: p.1, p.2))
      else if e = 'f' then (go rest1).map (fun p => ('\x0c' :: p.1, p.2))
      else if e = 'u' then
        match rest1 with
        | h1 :: h2 :: h3 :: h4 :: rest2 =>
          match hexVal h1, hexVal h2, hexVal h3, hexVal h4 with
          | some a, some b, some c2, some d =>
            let n := ((a * 16 + b) * 16 + c2) * 16 + d
            if n < 0xD800 ∨ 0xE000 ≤ n then
              (go rest2).map (fun p => (Char.ofNat n :: p.1, p.2))
            else none
          | _, _, _, _ => none
        | _ => none
      else none
  else if c.toNat < 0x20 then none
  else (go rest).map (fun p => (c :: p.1, p.2))

/-- Parse the body of a JSON string literal after the opening quote, up to
and including the closing quote; unescapes as Python does. -/
def parseStringBody : Nat → Str → Option (Str × Str)
  | 0, _ => none
  | _, [] => none
  | fuel + 1, c :: rest => psbStep (parseStringBody fuel) c rest

theorem parseStringBody_cons (f : Nat) (c : Char) (rest : Str) :
    parseStringBody (f + 1) (c :: rest) = psbStep (parseStringBody f) c rest := rfl

/-- Greedy decimal scanner with accumulator. -/
def parseDigitsAcc : Nat → Str → Nat × Str
  | acc, [] => (acc, [])
  | acc, c :: rest =>
    if isDigit10 c then parseDigitsAcc (acc * 10 + (c.toNat - 48)) rest
    else (acc, c :: rest)

def JArr.snoc : JArr → Json → JArr
  | .anil, v => .acons v .anil
  | .acons x r, v => .acons x (r.snoc v)

/-- The value dispatch on the first significant character, with the
object/array continuations abstracted (factored out of `parseValue` so that
proofs can unfold one step). -/
def pvDispatch (goFields : JFields → Str → Option (JFields × Str))
    (goItems : JArr → Str → Option (JArr × Str)) (c : Char) (rest : Str) :
    Option (Json × Str) :=
  if c = '"' then (parseStringBody rest.length rest).map (fun p => (Json.str p.1, p.2))
  else if c = '\x7b' then
    match skipWs rest with
    | [] => none
    | c2 :: r =>
      if c2 = '\x7d' then some (.obj .nil, r)
      else (goFields .nil (c2 :: r)).map (fun p => (Json.obj p.1, p.2))
  else if c = '[' then
    match skipWs rest with
    | [] => none
    | c2 :: r =>
      if c2 = ']' then some (.arr .anil, r)
      else (goItems .anil (c2 :: r)).map (fun p => (Json.arr p.1, p.2))
  else if c = 't' then
    match rest with
    | 'r' :: 'u' :: 'e' :: r => some (.jbool true, r)
    | _ => none
  else if c = 'f' then
    match rest with
    | 'a' :: 'l' :: 's' :: 'e' :: r => some (.jbool false, r)
    | _ => none
  else if c = 'n' then
    match rest with
    | 'u' :: 'l' :: 'l' :: r => some (.jnull, r)
    | _ => none
  else if c = '-' then
    match rest with
    | d :: _ =>
      if isDigit10 d then
        let p := parseDigitsAcc 0 rest
        some (.jint (-(p.1 : Int)), p.2)
      else none
    | [] => none
  else if isDigit10 c then
    let p := parseDigitsAcc 0 (c :: rest)
    some (.jint (p.1 : Int), p.2)
  else none

/-- Continuation of the object-member parser after a key has been read
(factored out of `parseFields` so that proofs can unfold one step). -/
def pfAfterKey (goValue : Str → Option (Json × Str))
    (goFields : JFields → Str → Option (JFields × Str))
    (acc : JFields) (k : Str) (rest1 : Str) : Option (JFields × Str) :=
  match skipWs rest1 with
  | ':' :: rest2 =>
    match goValue rest2 with
    | none => none
    | some (v, rest3) =>
      match skipWs rest3 with
      | ',' :: rest4 => goFields (acc.set k v) (skipWs rest4)
      | '\x7d' :: rest4 => some (acc.set k v, rest4)
      | _ => none
  | _ => none

mutual
def parseValue : Nat → Str → Option (Json × Str)
  | 0, _ => none
  | fuel + 1, s =>
    match skipWs s with
    | [] => none
    | c :: rest => pvDispatch (parseFields fuel) (parseItems fuel) c rest
def parseFields : Nat → JFields → Str → Option (JFields × Str)
  | 0, _, _ => none
  | fuel + 1, acc, s =>
    match s with
    | '"' :: rest =>
      match parseStringBody rest.length rest with
      | none => none
      | some (k, rest1) => pfAfterKey (parseValue fuel) (parseFields fuel) acc k rest1
    | _ => none
def parseItems : Nat → JArr → Str → Option (JArr × Str)
  | 0, _, _ => none
  | fuel + 1, acc, s =>
    match parseValue fuel s with
    | none => none
    | some (v, rest) =>
      match skipWs rest with
      | ',' :: rest2 => parseItems fuel (acc.snoc v) (skipWs rest2)
      | ']' :: rest2 => some (acc.snoc v, rest2)
      | _ => none
end

/-- Model of `json.loads`: parse one JSON value and require only
whitespace after it. -/
def loads (s : Str) : Option Json :=
  match parseValue (s.length + 1) s with
  | some (v, rest) => if skipWs rest = [] then some v else none
  | none => none

example : loads "\x7b\"a\": 1, \"b\": [true, null]\x7d".data
    = some (.obj (.cons "a".data (.jint 1)
        (.cons "b".data (.arr (.acons (.jbool true) (.acons .jnull .anil))) .nil))) := by decide
example : loads "\x7b".data = none := by decide
example : loads "nul".data = none := by decide

/-! ## Print-parse round trip -/

theorem skipWs_cons (c : Char) (s : Str) (h : isJsonWs c = false) :
    skipWs (c :: s) = c :: s := by
  simp [skipWs, List.dropWhile, h]

theorem skipWs_cons_ws (c : Char) (s : Str) (h : isJsonWs c = true) :
    skipWs (c :: s) = skipWs s := by
  simp [skipWs, List.dropWhile, h]

theorem hexVal_hexDigitChar (n : Nat) (h : n < 16) : hexVal (hexDigitChar n) = some n := by
  interval_cases n <;> decide

theorem digitChar_toNat (d : Nat) (h : d < 10) : (digitChar d).toNat = 48 + d := by
  interval_cases d <;> decide

theorem isDigit10_digitChar (d : Nat) (h : d < 10) : isDigit10 (digitChar d) = true := by
  interval_cases d <;> decide

theorem jsonEscape_nil : jsonEscape [] = [] := rfl

theorem jsonEscape_cons (c : Char) (s : Str) :
    jsonEscape (c :: s) = jsonEscapeChar c ++ jsonEscape s := by
  simp [jsonEscape]

theorem psb_stop (f : Nat) (rest : Str) :
    parseStringBody (f + 1) ('"' :: rest) = some ([], rest) := rfl

theorem psb_bs_quote (f : Nat) (rest : Str) :
    parseStringBody (f + 1) ('\\' :: '"' :: rest)
      = (parseStringBody f rest).map (fun p => ('"' :: p.1, p.2)) := rfl

theorem psb_bs_bs (f : Nat) (rest : Str) :
    parseStringBody (f + 1) ('\\' :: '\\' :: rest)
      = (parseStringBody f rest).map (fun p => ('\\' :: p.1, p.2)) := rfl

theorem psb_bs_n (f : Nat) (rest : Str) :
    parseStringBody (f + 1) ('\\' :: 'n' :: rest)
      = (parseStringBody f rest).map (fun p => ('\n' :: p.1, p.2)) := rfl

theorem psb_bs_r (f : Nat) (rest : Str) :
    parseStringBody (f + 1) ('\\' :: 'r' :: rest)
      = (parseStringBody f rest).map (fun p => ('\r' :: p.1, p.2)) := rfl

theorem psb_bs_t (f : Nat) (rest : Str) :
    parseStringBody (f + 1) ('\\' :: 't' :: rest)
      = (parseStringBody f rest).map (fun p => ('\t' :: p.1, p.2)) := rfl

theorem psb_bs_b (f : Nat) (rest : Str) :
    parseStringBody (f + 1) ('\\' :: 'b' :: rest)
      = (parseStringBody f rest).map (fun p => ('\x08' :: p.1, p.2)) := rfl

theorem psb_bs_f (f : Nat) (rest : Str) :
    parseStringBody (f + 1) ('\\' :: 'f' :: rest)
      = (parseStringBody f rest).map (fun p => ('\x0c' :: p.1, p.2)) := rfl

theorem psb_u_digits (f : Nat) (rest : Str) (x y : Nat) (hx : x < 16) (hy : y < 16)
    (hval : ((0 * 16 + 0) * 16 + x) * 16 + y < 0xD800) :
    parseStringBody (f + 1) ('\\' :: 'u' :: '0' :: '0' :: hexDigitChar x :: hexDigitChar y :: rest)
      = (parseStringBody f rest).map
          (fun p => (Char.ofNat (((0 * 16 + 0) * 16 + x) * 16 + y) :: p.1, p.2)) := by
  simp only [parseStringBody_cons, psbStep, reduceIte]
  rw [hexVal_hexDigitChar x hx, hexVal_hexDigitChar y hy]
  simp only [show hexVal '0' = some 0 from rfl]
  rw [if_pos (Or.inl hval)]
  simp

theorem psb_plain (f : Nat) (c : Char) (rest : Str) (h1 : ¬ c = '"') (h2 : ¬ c = '\\')
    (h3 : ¬ c.toNat < 0x20) :
    parseStringBody (f + 1) (c :: rest)
      = (parseStringBody f rest).map (fun p => (c :: p.1, p.2)) := by
  simp only [parseStringBody_cons, psbStep, if_neg h1, if_neg h2, if_neg h3]

theorem parseStringBody_escape :
    ∀ (s : Str) (rest : Str) (fuel : Nat), s.length < fuel →
    parseStringBody fuel (jsonEscape s ++ '"' :: rest) = some (s, rest) := by
  intro s
  induction s with
  | nil =>
    intro rest fuel hf
    cases fuel with
    | zero => omega
    | succ f => simpa [jsonEscape] using psb_stop f rest
  | cons c cs ih =>
    intro rest fuel hf
    cases fuel with
    | zero => omega
    | succ f =>
      have hfs : cs.length < f := by simp at hf; omega
      have ihr := ih rest f hfs
      rw [jsonEscape_cons]
      by_cases h1 : c = '"'
      · subst h1
        rw [show jsonEscapeChar '"' = ['\\', '"'] from rfl]
        simp only [List.cons_append, List.nil_append]
        rw [psb_bs_quote, ihr]
        rfl
      · by_cases h2 : c = '\\'
        · subst h2
          rw [show jsonEscapeChar '\\' = ['\\', '\\'] from rfl]
          simp only [List.cons_append, List.nil_append]
          rw [psb_bs_bs, ihr]
          rfl
        · by_cases h3 : c = '\n'
          · subst h3
            rw [show jsonEscapeChar '\n' = ['\\', 'n'] from rfl]
            simp only [List.cons_append, List.nil_append]
            rw [psb_bs_n, ihr]
            rfl
          · by_cases h4 : c = '\r'
            · subst h4
              rw [show jsonEscapeChar '\r' = ['\\', 'r'] from rfl]
              simp only [List.cons_append, List.nil_append]
              rw [psb_bs_r, ihr]
              rfl
            · by_cases h5 : c = '\t'
              · subst h5
                rw [show jsonEscapeChar '\t' = ['\\', 't'] from rfl]
                simp only [List.cons_append, List.nil_append]
                rw [psb_bs_t, ihr]
                rfl
              · by_cases h6 : c = '\x08'
                · subst h6
                  rw [show jsonEscapeChar '\x08' = ['\\', 'b'] from rfl]
                  simp only [List.cons_append, List.nil_append]
                  rw [psb_bs_b, ihr]
                  rfl
                · by_cases h7 : c = '\x0c'
                  · subst h7
                    rw [show jsonEscapeChar '\x0c' = ['\\', 'f'] from rfl]
                    simp only [List.cons_append, List.nil_append]
                    rw [psb_bs_f, ihr]
                    rfl
                  · by_cases h8 : c.toNat < 0x20
                    · rw [show jsonEscapeChar c = ['\\', 'u', '0', '0',
                          hexDigitChar (c.toNat / 16), hexDigitChar (c.toNat % 16)] by
                        simp only [jsonEscapeChar, if_neg h1, if_neg h2, if_neg h3, if_neg h4,
                          if_neg h5, if_neg h6, if_neg h7, if_pos h8]]
                      simp only [List.cons_append, List.nil_append]
                      rw [psb_u_digits f _ (c.toNat / 16) (c.toNat % 16) (by omega) (by omega)
                        (by omega), ihr]
                      have hn : ((0 * 16 + 0) * 16 + c.toNat / 16) * 16 + c.toNat % 16
                          = c.toNat := by omega
                      rw [hn, Char.ofNat_toNat]
                      rfl
                    · rw [show jsonEscapeChar c = [c] by
                        simp only [jsonEscapeChar, if_neg h1, if_neg h2, if_neg h3, if_neg h4,
                          if_neg h5, if_neg h6, if_neg h7, if_neg h8]]
                      simp only [List.cons_append, List.nil_append]
                      rw [psb_plain f c _ h1 h2 h8, ihr]
                      rfl

/-- After a serialized value, the remaining input never starts with a digit
(it is empty or starts with a separator or closer), so the greedy number
scanner stops exactly at the value boundary. -/
def restSafe : Str → Prop
  | [] => True
  | c :: _ => isDigit10 c = false

theorem ne_of_toNat_ne (a b : Char) (h : a.toNat ≠ b.toNat) : a ≠ b :=
  fun e => h (congrArg Char.toNat e)

theorem digit_facts (d : Nat) (h : d < 10) :
    isDigit10 (digitChar d) = true ∧ isJsonWs (digitChar d) = false ∧
    digitChar d ≠ '"' ∧ digitChar d ≠ '\x7b' ∧ digitChar d ≠ '[' ∧
    digitChar d ≠ 't' ∧ digitChar d ≠ 'f' ∧ digitChar d ≠ 'n' ∧ digitChar d ≠ '-' := by
  interval_cases d <;> exact ⟨rfl, rfl, by decide, by decide, by decide, by decide,
    by decide, by decide, by decide⟩

theorem digit_facts2 (d : Nat) (h : d < 10) :
    digitChar d ≠ ']' ∧ digitChar d ≠ '\x7d' ∧ digitChar d ≠ ',' := by
  interval_cases d <;> exact ⟨by decide, by decide, by decide⟩

theorem natDigits_head (n : Nat) :
    ∃ d t, d < 10 ∧ natDigits n = digitChar d :: t := by
  induction n using Nat.strong_induction_on with
  | _ n ih =>
    rw [natDigits_eq]
    by_cases h10 : n < 10
    · exact ⟨n, [], h10, by simp [h10]⟩
    · have hdiv : n / 10 < n := Nat.div_lt_self (by omega) (by omega)
      obtain ⟨d, t, hd, ht⟩ := ih (n / 10) hdiv
      exact ⟨d, t ++ [digitChar (n % 10)], hd, by simp [h10, ht]⟩

theorem parseDigitsAcc_natDigits (n : Nat) : ∀ (acc : Nat) (rest : Str),
    parseDigitsAcc acc (natDigits n ++ rest)
      = parseDigitsAcc (acc * 10 ^ (natDigits n).length + n) rest := by
  induction n using Nat.strong_induction_on with
  | _ n ih =>
    intro acc rest
    by_cases h10 : n < 10
    · rw [natDigits_eq, if_pos h10]
      simp only [List.cons_append, List.nil_append, List.length_cons, List.length_nil,
        parseDigitsAcc]
      rw [if_pos ((digit_facts n h10).1)]
      rw [digitChar_toNat n h10]
      congr 1
      omega
    · have hdiv : n / 10 < n := Nat.div_lt_self (by omega) (by omega)
      conv_lhs => rw [natDigits_eq, if_neg h10]
      conv_rhs => rw [natDigits_eq, if_neg h10]
      rw [List.append_assoc]
      simp only [List.singleton_append]
      rw [ih (n / 10) hdiv acc (digitChar (n % 10) :: rest)]
      simp only [List.cons_append, List.nil_append, parseDigitsAcc]
      rw [if_pos ((digit_facts (n % 10) (by omega)).1), digitChar_toNat (n % 10) (by omega)]
      simp only [List.length_append, List.length_cons, List.length_nil]
      congr 1
      have hpow : 10 ^ ((natDigits (n / 10)).length + 1)
          = 10 ^ (natDigits (n / 10)).length * 10 := by
        rw [pow_succ]
      rw [hpow]
      have h1 : n % 10 < 10 := by omega
      have h2 : n / 10 * 10 + n % 10 = n := by omega
      ring_nf
      omega

theorem parseDigitsAcc_stop (n : Nat) (rest : Str) (h : restSafe rest) :
    parseDigitsAcc n rest = (n, rest) := by
  cases rest with
  | nil => rfl
  | cons c t =>
    simp only [restSafe] at h
    simp [parseDigitsAcc, h]

theorem parseDigitsAcc_natDigits_run (n : Nat) (rest : Str) (h : restSafe rest) :
    parseDigitsAcc 0 (natDigits n ++ rest) = (n, rest) := by
  rw [parseDigitsAcc_natDigits n 0 rest]
  simp only [Nat.zero_mul, Nat.zero_add]
  exact parseDigitsAcc_stop n rest h

theorem jsonEscapeChar_length_pos (c : Char) : 1 ≤ (jsonEscapeChar c).length := by
  unfold jsonEscapeChar
  repeat' split
  all_goals simp

theorem jsonEscape_length (s : Str) : s.length ≤ (jsonEscape s).length := by
  induction s with
  | nil => simp [jsonEscape]
  | cons c cs ih =>
    rw [jsonEscape_cons]
    have := jsonEscapeChar_length_pos c
    simp only [List.length_append, List.length_cons]
    omega

mutual
/-- A JSON value representable by Python objects: object keys are unique
at every level (Python dicts cannot hold duplicate keys). -/
def wfJson : Json → Bool
  | .str _ => true
  | .jbool _ => true
  | .jint _ => true
  | .jnull => true
  | .obj fs => wfFields fs
  | .arr items => wfItems items
def wfFields : JFields → Bool
  | .nil => true
  | .cons k v rest => !rest.hasKey k && wfJson v && wfFields rest
def wfItems : JArr → Bool
  | .anil => true
  | .acons v rest => wfJson v && wfItems rest
end

mutual
/-- Fuel lower bound for parsing a serialized value. -/
def jsonSize : Json → Nat
  | .str _ => 1
  | .jbool _ => 1
  | .jint _ => 1
  | .jnull => 1
  | .obj fs => 1 + jfieldsSize fs
  | .arr items => 1 + jarrSize items
def jfieldsSize : JFields → Nat
  | .nil => 0
  | .cons _ v rest => 1 + jsonSize v + jfieldsSize rest
def jarrSize : JArr → Nat
  | .anil => 0
  | .acons v rest => 1 + jsonSize v + jarrSize rest
end

/-- Sequential dict assignment, as the object parser performs it. -/
def JFields.foldSet : JFields → JFields → JFields
  | acc, .nil => acc
  | acc, .cons k v rest => JFields.foldSet (acc.set k v) rest

theorem JFields.hasKey_cons (k k2 : Str) (v : Json) (r : JFields) :
    (JFields.cons k v r).hasKey k2 = (decide (k = k2) || r.hasKey k2) := by
  by_cases h : k = k2 <;> simp [JFields.hasKey, JFields.get, h]

theorem JFields.hasKey_set : ∀ (acc : JFields) (k k2 : Str) (v : Json),
    (acc.set k v).hasKey k2 = (acc.hasKey k2 || decide (k = k2))
  | .nil, k, k2, v => by
    by_cases h : k = k2 <;> simp [JFields.set, JFields.hasKey, JFields.get, h]
  | .cons k3 v3 r, k, k2, v => by
    by_cases h3 : k3 = k
    · subst h3
      by_cases h : k3 = k2 <;>
        simp [JFields.set, JFields.hasKey, JFields.get, h]
    · by_cases h : k3 = k2
      · subst h
        simp [JFields.set, if_neg h3, JFields.hasKey, JFields.get]
      · simp only [JFields.set, if_neg h3]
        rw [JFields.hasKey_cons, JFields.hasKey_cons, JFields.hasKey_set r k k2 v]
        simp [h]
        try tauto

theorem JFields.append_nil_right : ∀ (a : JFields), a.append .nil = a
  | .nil => rfl
  | .cons k v r => by simp [JFields.append, JFields.append_nil_right r]

theorem JFields.append_assoc : ∀ (a b c : JFields),
    (a.append b).append c = a.append (b.append c)
  | .nil, _, _ => rfl
  | .cons k v r, b, c => by simp [JFields.append, JFields.append_assoc r b c]

theorem JFields.set_absent : ∀ (acc : JFields) (k : Str) (v : Json),
    acc.hasKey k = false → acc.set k v = acc.append (.cons k v .nil)
  | .nil, k, v, _ => rfl
  | .cons k2 v2 r, k, v, h => by
    rw [JFields.hasKey_cons] at h
    simp only [Bool.or_eq_false_iff, decide_eq_false_iff_not] at h
    simp [JFields.set, fun e => h.1 e, JFields.append, JFields.set_absent r k v h.2]

/-- Folding distinct-key assignments over an accumulator whose keys are
disjoint appends the pairs in order.  This is exactly how the object parser
reconstructs a dict. -/
theorem JFields.foldSet_append : ∀ (fs acc : JFields), wfFields fs = true →
    (∀ k, fs.hasKey k = true → acc.hasKey k = false) →
    JFields.foldSet acc fs = acc.append fs
  | .nil, acc, _, _ => by
    simp [JFields.foldSet, JFields.append_nil_right acc]
  | .cons k v r, acc, hwf, hdisj => by
    have hself : (JFields.cons k v r).hasKey k = true := by
      simp [JFields.hasKey_cons]
    have hacck : acc.hasKey k = false := hdisj k hself
    simp only [wfFields, Bool.and_eq_true, Bool.not_eq_true'] at hwf
    simp only [JFields.foldSet]
    rw [JFields.foldSet_append r (acc.set k v) hwf.2 ?disj]
    case disj =>
      intro k2 hk2
      rw [JFields.hasKey_set]
      have hne : ¬ (k = k2) := by
        intro e
        subst e
        rw [hwf.1.1] at hk2
        exact Bool.false_ne_true hk2
      have : acc.hasKey k2 = false := by
        apply hdisj
        rw [JFields.hasKey_cons, hk2]
        simp
      simp [this, hne]
    rw [JFields.set_absent acc k v hacck, JFields.append_assoc]
    rfl

theorem JFields.foldSet_nil_eq (fs : JFields) (hwf : wfFields fs = true) :
    JFields.foldSet JFields.nil fs = fs := by
  rw [JFields.foldSet_append fs JFields.nil hwf (fun k _ => rfl)]
  rfl

def JArr.aappend : JArr → JArr → JArr
  | .anil, ys => ys
  | .acons x r, ys => .acons x (r.aappend ys)

/-- Sequential `list.append` of parsed array elements. -/
def JArr.snocAll : JArr → JArr → JArr
  | acc, .anil => acc
  | acc, .acons v rest => JArr.snocAll (acc.snoc v) rest

theorem JArr.aappend_anil_right : ∀ (a : JArr), a.aappend .anil = a
  | .anil => rfl
  | .acons x r => by simp [JArr.aappend, JArr.aappend_anil_right r]

theorem JArr.aappend_assoc : ∀ (a b c : JArr),
    (a.aappend b).aappend c = a.aappend (b.aappend c)
  | .anil, _, _ => rfl
  | .acons x r, b, c => by simp [JArr.aappend, JArr.aappend_assoc r b c]

theorem JArr.snoc_eq_aappend : ∀ (a : JArr) (v : Json),
    a.snoc v = a.aappend (.acons v .anil)
  | .anil, v => rfl
  | .acons x r, v => by simp [JArr.snoc, JArr.aappend, JArr.snoc_eq_aappend r v]

theorem JArr.snocAll_eq_aappend : ∀ (items acc : JArr),
    JArr.snocAll acc items = acc.aappend items
  | .anil, acc => by simp [JArr.snocAll, JArr.aappend_anil_right acc]
  | .acons v rest, acc => by
    simp only [JArr.snocAll]
    rw [JArr.snocAll_eq_aappend rest (acc.snoc v), JArr.snoc_eq_aappend, JArr.aappend_assoc]
    rfl

theorem JArr.snocAll_anil (items : JArr) : JArr.snocAll .anil items = items := by
  rw [JArr.snocAll_eq_aappend]
  rfl

/-- The part of a member list rendering that follows the first member. -/
def fieldsTail : JFields → Str
  | .nil => []
  | .cons k v rest => [',', ' '] ++ dumpsFields (.cons k v rest)

theorem dumpsFields_cons (k : Str) (v : Json) (fs : JFields) :
    dumpsFields (.cons k v fs) = jsonQuote k ++ [':', ' '] ++ dumps v ++ fieldsTail fs := by
  match fs with
  | .nil => simp [dumpsFields, fieldsTail]
  | .cons k2 v2 rest => simp [dumpsFields, fieldsTail]

def itemsTail : JArr → Str
  | .anil => []
  | .acons v rest => [',', ' '] ++ dumpsArr (.acons v rest)

theorem dumpsArr_acons (v : Json) (items : JArr) :
    dumpsArr (.acons v items) = dumps v ++ itemsTail items := by
  match items with
  | .anil => simp [dumpsArr, itemsTail]
  | .acons v2 rest => simp [dumpsArr, itemsTail]

theorem jsonSize_pos : ∀ (v : Json), 1 ≤ jsonSize v
  | .str _ => le_refl 1
  | .jbool _ => le_refl 1
  | .jint _ => le_refl 1
  | .jnull => le_refl 1
  | .obj _ => by simp [jsonSize]
  | .arr _ => by simp [jsonSize]

theorem skipWs_dumps : ∀ (v : Json) (rest : Str),
    skipWs (dumps v ++ rest) = dumps v ++ rest
  | .str s, rest => by
    simp only [dumps, jsonQuote, List.cons_append]
    exact skipWs_cons _ _ (by decide)
  | .jbool true, rest => skipWs_cons _ _ (by decide)
  | .jbool false, rest => skipWs_cons _ _ (by decide)
  | .jnull, rest => skipWs_cons _ _ (by decide)
  | .obj fs, rest => by
    simp only [dumps, List.cons_append]
    exact skipWs_cons _ _ (by decide)
  | .arr items, rest => by
    simp only [dumps, List.cons_append]
    exact skipWs_cons _ _ (by decide)
  | .jint n, rest => by
    simp only [dumps, intDigits]
    by_cases hneg : n < 0
    · rw [if_pos hneg]
      simp only [List.cons_append]
      exact skipWs_cons _ _ (by decide)
    · rw [if_neg hneg]
      obtain ⟨d, t, hd, ht⟩ := natDigits_head n.toNat
      rw [ht]
      simp only [List.cons_append]
      exact skipWs_cons _ _ ((digit_facts d hd).2.1)

theorem parseValue_cons (f : Nat) (c : Char) (rest : Str) (hn : isJsonWs c = false) :
    parseValue (f + 1) (c :: rest) = pvDispatch (parseFields f) (parseItems f) c rest := by
  have hs : skipWs (c :: rest) = c :: rest := skipWs_cons c rest hn
  show (match skipWs (c :: rest) with
    | [] => none
    | c :: rest => pvDispatch (parseFields f) (parseItems f) c rest) = _
  rw [hs]

theorem parseValue_cons_ws (f : Nat) (c : Char) (s : Str) (h : isJsonWs c = true) :
    parseValue f (c :: s) = parseValue f s := by
  cases f with
  | zero => rfl
  | succ f =>
    show (match skipWs (c :: s) with
      | [] => none
      | c :: rest => pvDispatch (parseFields f) (parseItems f) c rest)
      = (match skipWs s with
      | [] => none
      | c :: rest => pvDispatch (parseFields f) (parseItems f) c rest)
    rw [skipWs_cons_ws c s h]

theorem parseFields_quote (f : Nat) (acc : JFields) (body : Str) :
    parseFields (f + 1) acc ('"' :: body)
      = match parseStringBody body.length body with
        | none => none
        | some (k, rest1) => pfAfterKey (parseValue f) (parseFields f) acc k rest1 := rfl

theorem parseItems_succ (f : Nat) (acc : JArr) (s : Str) :
    parseItems (f + 1) acc s
      = match parseValue f s with
        | none => none
        | some (v, rest) =>
          match skipWs rest with
          | ',' :: rest2 => parseItems f (acc.snoc v) (skipWs rest2)
          | ']' :: rest2 => some (acc.snoc v, rest2)
          | _ => none := rfl

/-- The first character of a serialized value is never whitespace nor a
closing bracket. -/
theorem dumps_head_facts : ∀ (v : Json), ∃ c t, dumps v = c :: t ∧
    isJsonWs c = false ∧ c ≠ ']' ∧ c ≠ '\x7d'
  | .str s => ⟨'"', jsonEscape s ++ ['"'], by simp [dumps, jsonQuote], by decide, by decide,
      by decide⟩
  | .jbool true => ⟨'t', ['r', 'u', 'e'], rfl, by decide, by decide, by decide⟩
  | .jbool false => ⟨'f', ['a', 'l', 's', 'e'], rfl, by decide, by decide, by decide⟩
  | .jnull => ⟨'n', ['u', 'l', 'l'], rfl, by decide, by decide, by decide⟩
  | .obj fs => ⟨'\x7b', dumpsFields fs ++ ['\x7d'], by simp [dumps], by decide, by decide,
      by decide⟩
  | .arr items => ⟨'[', dumpsArr items ++ [']'], by simp [dumps], by decide, by decide,
      by decide⟩
  | .jint n => by
    by_cases hneg : n < 0
    · exact ⟨'-', natDigits (-n).toNat, by simp [dumps, intDigits, hneg], by decide, by decide,
        by decide⟩
    · obtain ⟨d, t, hd, ht⟩ := natDigits_head n.toNat
      refine ⟨digitChar d, t, ?_, (digit_facts d hd).2.1, (digit_facts2 d hd).1,
        (digit_facts2 d hd).2.1⟩
      simp [dumps, intDigits, hneg, ht]

theorem pfAfterKey_run (goV : Str → Option (Json × Str))
    (goF : JFields → Str → Option (JFields × Str)) (acc : JFields) (k : Str) (X : Str)
    (v : Json) (tail : Str) (hgo : goV (' ' :: X) = some (v, tail)) :
    pfAfterKey goV goF acc k (':' :: ' ' :: X)
      = match skipWs tail with
        | ',' :: rest4 => goF (acc.set k v) (skipWs rest4)
        | '\x7d' :: rest4 => some (acc.set k v, rest4)
        | _ => none := by
  show (match goV (' ' :: X) with
        | none => none
        | some (v, rest3) =>
          match skipWs rest3 with
          | ',' :: rest4 => goF (acc.set k v) (skipWs rest4)
          | '\x7d' :: rest4 => some (acc.set k v, rest4)
          | _ => none) = _
  rw [hgo]

mutual
theorem parseValue_dumps : ∀ (v : Json) (rest : Str) (fuel : Nat), wfJson v = true →
    jsonSize v ≤ fuel → restSafe rest →
    parseValue fuel (dumps v ++ rest) = some (v, rest)
  | v, _, 0, _, hfuel, _ => by
    have := jsonSize_pos v
    omega
  | .str s, rest, f + 1, _, _, _ => by
    have he : dumps (Json.str s) ++ rest = '"' :: (jsonEscape s ++ '"' :: rest) := by
      simp [dumps, jsonQuote]
    rw [he, parseValue_cons f '"' _ (by decide)]
    show (parseStringBody (jsonEscape s ++ '"' :: rest).length (jsonEscape s ++ '"' :: rest)).map
        (fun p => (Json.str p.1, p.2)) = some (Json.str s, rest)
    rw [parseStringBody_escape s rest _ (by
      have := jsonEscape_length s
      simp only [List.length_append, List.length_cons]
      omega)]
    rfl
  | .jbool true, rest, f + 1, _, _, _ => by
    rw [show dumps (Json.jbool true) ++ rest = 't' :: ('r' :: 'u' :: 'e' :: rest) from rfl,
      parseValue_cons f 't' _ (by decide)]
    rfl
  | .jbool false, rest, f + 1, _, _, _ => by
    rw [show dumps (Json.jbool false) ++ rest = 'f' :: ('a' :: 'l' :: 's' :: 'e' :: rest) from rfl,
      parseValue_cons f 'f' _ (by decide)]
    rfl
  | .jnull, rest, f + 1, _, _, _ => by
    rw [show dumps Json.jnull ++ rest = 'n' :: ('u' :: 'l' :: 'l' :: rest) from rfl,
      parseValue_cons f 'n' _ (by decide)]
    rfl
  | .jint n, rest, f + 1, _, _, hrest => by
    by_cases hneg : n < 0
    · have he : dumps (Json.jint n) ++ rest = '-' :: (natDigits (-n).toNat ++ rest) := by
        simp [dumps, intDigits, hneg]
      rw [he, parseValue_cons f '-' _ (by decide)]
      obtain ⟨d, t, hd, ht⟩ := natDigits_head (-n).toNat
      have he2 : natDigits (-n).toNat ++ rest = digitChar d :: (t ++ rest) := by
        rw [ht]
        rfl
      rw [he2]
      show (if isDigit10 (digitChar d) then
          some (Json.jint (-(((parseDigitsAcc 0 (digitChar d :: (t ++ rest))).1 : Nat) : Int)),
            (parseDigitsAcc 0 (digitChar d :: (t ++ rest))).2)
        else none) = some (Json.jint n, rest)
      rw [if_pos ((digit_facts d hd).1), ← he2, parseDigitsAcc_natDigits_run _ rest hrest]
      have hn : (((-n).toNat : Int)) = -n := Int.toNat_of_nonneg (by omega)
      simp [hn]
    · have he : dumps (Json.jint n) ++ rest = natDigits n.toNat ++ rest := by
        simp [dumps, intDigits, hneg]
      obtain ⟨d, t, hd, ht⟩ := natDigits_head n.toNat
      have he2 : natDigits n.toNat ++ rest = digitChar d :: (t ++ rest) := by
        rw [ht]
        rfl
      rw [he, he2, parseValue_cons f (digitChar d) _ ((digit_facts d hd).2.1)]
      have hfacts := digit_facts d hd
      simp only [pvDispatch, if_neg hfacts.2.2.1, if_neg hfacts.2.2.2.1,
        if_neg hfacts.2.2.2.2.1, if_neg hfacts.2.2.2.2.2.1, if_neg hfacts.2.2.2.2.2.2.1,
        if_neg hfacts.2.2.2.2.2.2.2.1, if_neg hfacts.2.2.2.2.2.2.2.2, if_pos hfacts.1]
      rw [← he2, parseDigitsAcc_natDigits_run _ rest hrest]
      have hn : ((n.toNat : Nat) : Int) = n := Int.toNat_of_nonneg (by omega)
      simp [hn]
  | .obj .nil, rest, f + 1, _, _, _ => by
    rw [show dumps (Json.obj .nil) ++ rest = '\x7b' :: ('\x7d' :: rest) from rfl,
      parseValue_cons f '\x7b' _ (by decide)]
    rfl
  | .obj (.cons k v fs), rest, f + 1, hwf, hfuel, hrest => by
    have he : dumps (Json.obj (.cons k v fs)) ++ rest
        = '\x7b' :: (dumpsFields (.cons k v fs) ++ '\x7d' :: rest) := by
      simp [dumps]
    rw [he, parseValue_cons f '\x7b' _ (by decide)]
    have hshape : dumpsFields (.cons k v fs) ++ '\x7d' :: rest
        = '"' :: (jsonEscape k ++ '"' :: (':' :: ' ' ::
            (dumps v ++ (fieldsTail fs ++ '\x7d' :: rest)))) := by
      rw [dumpsFields_cons]
      simp [jsonQuote]
    rw [hshape]
    show (parseFields f .nil ('"' :: (jsonEscape k ++ '"' :: (':' :: ' ' ::
        (dumps v ++ (fieldsTail fs ++ '\x7d' :: rest)))))).map (fun p => (Json.obj p.1, p.2))
      = some (Json.obj (.cons k v fs), rest)
    rw [← hshape]
    rw [parseFields_dumps k v fs .nil rest f hwf
      (by simp only [jsonSize] at hfuel; omega) hrest]
    rw [JFields.foldSet_nil_eq _ hwf]
    rfl
  | .arr .anil, rest, f + 1, _, _, _ => by
    rw [show dumps (Json.arr .anil) ++ rest = '[' :: (']' :: rest) from rfl,
      parseValue_cons f '[' _ (by decide)]
    rfl
  | .arr (.acons v items), rest, f + 1, hwf, hfuel, hrest => by
    have he : dumps (Json.arr (.acons v items)) ++ rest
        = '[' :: (dumpsArr (.acons v items) ++ ']' :: rest) := by
      simp [dumps]
    rw [he, parseValue_cons f '[' _ (by decide)]
    obtain ⟨c0, t0, ht0, hnws, hnrb, _⟩ := dumps_head_facts v
    have hshape : dumpsArr (.acons v items) ++ ']' :: rest
        = c0 :: (t0 ++ (itemsTail items ++ ']' :: rest)) := by
      rw [dumpsArr_acons, ht0]
      simp
    show (match skipWs (dumpsArr (.acons v items) ++ ']' :: rest) with
          | [] => none
          | c2 :: r =>
            if c2 = ']' then some (Json.arr .anil, r)
            else (parseItems f .anil (c2 :: r)).map (fun p => (Json.arr p.1, p.2)))
        = some (Json.arr (.acons v items), rest)
    rw [hshape, skipWs_cons c0 _ hnws]
    show (if c0 = ']' then some (Json.arr .anil, t0 ++ (itemsTail items ++ ']' :: rest))
        else (parseItems f .anil
          (c0 :: (t0 ++ (itemsTail items ++ ']' :: rest)))).map (fun p => (Json.arr p.1, p.2)))
      = some (Json.arr (.acons v items), rest)
    rw [if_neg hnrb, ← hshape]
    rw [parseItems_dumps v items .anil rest f hwf
      (by simp only [jsonSize] at hfuel; omega) hrest]
    rw [JArr.snocAll_anil]
    rfl
termination_by v _ _ _ _ _ => jsonSize v
decreasing_by all_goals simp only [jsonSize, jfieldsSize, jarrSize]; omega
theorem parseFields_dumps : ∀ (k : Str) (v : Json) (fs : JFields) (acc : JFields) (rest : Str)
    (fuel : Nat), wfFields (.cons k v fs) = true → jfieldsSize (.cons k v fs) ≤ fuel →
    restSafe rest →
    parseFields fuel acc (dumpsFields (.cons k v fs) ++ '\x7d' :: rest)
      = some (JFields.foldSet acc (.cons k v fs), rest)
  | k, v, fs, _, _, 0, _, hfuel, _ => by
    simp only [jfieldsSize] at hfuel
    omega
  | k, v, .nil, acc, rest, f + 1, hwf, hfuel, hrest => by
    simp only [wfFields, Bool.and_eq_true, Bool.not_eq_true'] at hwf
    simp only [jfieldsSize] at hfuel
    have hin : dumpsFields (.cons k v .nil) ++ '\x7d' :: rest
        = '"' :: (jsonEscape k ++ '"' :: (':' :: ' ' ::
            (dumps v ++ (fieldsTail JFields.nil ++ '\x7d' :: rest)))) := by
      rw [dumpsFields_cons]
      simp [jsonQuote]
    rw [hin, parseFields_quote]
    rw [parseStringBody_escape k _ _ (by
      have := jsonEscape_length k
      simp only [List.length_append, List.length_cons]
      omega)]
    show pfAfterKey (parseValue f) (parseFields f) acc k (':' :: ' ' ::
        (dumps v ++ (fieldsTail JFields.nil ++ '\x7d' :: rest)))
      = some (JFields.foldSet acc (.cons k v .nil), rest)
    have hsafe : restSafe (fieldsTail JFields.nil ++ '\x7d' :: rest) :=
      (rfl : restSafe ('\x7d' :: rest))
    have hgo : parseValue f (' ' :: (dumps v ++ (fieldsTail JFields.nil ++ '\x7d' :: rest)))
        = some (v, fieldsTail JFields.nil ++ '\x7d' :: rest) := by
      rw [parseValue_cons_ws f ' ' _ (by decide)]
      exact parseValue_dumps v _ f hwf.1.2 (by omega) hsafe
    rw [pfAfterKey_run (parseValue f) (parseFields f) acc k _ v _ hgo]
    show (match skipWs ('\x7d' :: rest) with
          | ',' :: rest4 => parseFields f (acc.set k v) (skipWs rest4)
          | '\x7d' :: rest4 => some (acc.set k v, rest4)
          | _ => none) = _
    rw [skipWs_cons '\x7d' rest (by decide)]
    rfl
  | k, v, .cons k2 v2 fs2, acc, rest, f + 1, hwf, hfuel, hrest => by
    simp only [wfFields, Bool.and_eq_true, Bool.not_eq_true'] at hwf
    simp only [jfieldsSize] at hfuel
    have hin : dumpsFields (.cons k v (.cons k2 v2 fs2)) ++ '\x7d' :: rest
        = '"' :: (jsonEscape k ++ '"' :: (':' :: ' ' ::
            (dumps v ++ (fieldsTail (.cons k2 v2 fs2) ++ '\x7d' :: rest)))) := by
      rw [dumpsFields_cons]
      simp [jsonQuote]
    rw [hin, parseFields_quote]
    rw [parseStringBody_escape k _ _ (by
      have := jsonEscape_length k
      simp only [List.length_append, List.length_cons]
      omega)]
    show pfAfterKey (parseValue f) (parseFields f) acc k (':' :: ' ' ::
        (dumps v ++ (fieldsTail (.cons k2 v2 fs2) ++ '\x7d' :: rest)))
      = some (JFields.foldSet acc (.cons k v (.cons k2 v2 fs2)), rest)
    have hsafe : restSafe (fieldsTail (.cons k2 v2 fs2) ++ '\x7d' :: rest) :=
      (by decide : isDigit10 ',' = false)
    have hgo : parseValue f
        (' ' :: (dumps v ++ (fieldsTail (.cons k2 v2 fs2) ++ '\x7d' :: rest)))
        = some (v, fieldsTail (.cons k2 v2 fs2) ++ '\x7d' :: rest) := by
      rw [parseValue_cons_ws f ' ' _ (by decide)]
      exact parseValue_dumps v _ f hwf.1.2 (by omega) hsafe
    rw [pfAfterKey_run (parseValue f) (parseFields f) acc k _ v _ hgo]
    show (match skipWs (',' :: ' ' :: (dumpsFields (.cons k2 v2 fs2) ++ '\x7d' :: rest)) with
          | ',' :: rest4 => parseFields f (acc.set k v) (skipWs rest4)
          | '\x7d' :: rest4 => some (acc.set k v, rest4)
          | _ => none) = _
    rw [skipWs_cons ',' _ (by decide)]
    show parseFields f (acc.set k v)
        (skipWs (' ' :: (dumpsFields (.cons k2 v2 fs2) ++ '\x7d' :: rest)))
      = some (JFields.foldSet acc (.cons k v (.cons k2 v2 fs2)), rest)
    rw [skipWs_cons_ws ' ' _ (by decide)]
    have hq : dumpsFields (.cons k2 v2 fs2) ++ '\x7d' :: rest
        = '"' :: (jsonEscape k2 ++ '"' :: (':' :: ' ' ::
            (dumps v2 ++ (fieldsTail fs2 ++ '\x7d' :: rest)))) := by
      rw [dumpsFields_cons]
      simp [jsonQuote]
    rw [hq, skipWs_cons '"' _ (by decide), ← hq]
    rw [parseFields_dumps k2 v2 fs2 (acc.set k v) rest f
      (by simp only [wfFields, Bool.and_eq_true, Bool.not_eq_true']; exact hwf.2)
      (by simp only [jfieldsSize]; omega) hrest]
    rfl
termination_by k v fs _ _ _ _ _ _ => jfieldsSize (.cons k v fs)
decreasing_by all_goals simp only [jsonSize, jfieldsSize, jarrSize]; omega
theorem parseItems_dumps : ∀ (v : Json) (items : JArr) (acc : JArr) (rest : Str) (fuel : Nat),
    wfItems (.acons v items) = true → jarrSize (.acons v items) ≤ fuel → restSafe rest →
    parseItems fuel acc (dumpsArr (.acons v items) ++ ']' :: rest)
      = some (JArr.snocAll acc (.acons v items), rest)
  | v, items, _, _, 0, _, hfuel, _ => by
    simp only [jarrSize] at hfuel
    omega
  | v, .anil, acc, rest, f + 1, hwf, hfuel, hrest => by
    simp only [wfItems, Bool.and_eq_true] at hwf
    simp only [jarrSize] at hfuel
    rw [parseItems_succ]
    have hshape : dumpsArr (.acons v .anil) ++ ']' :: rest
        = dumps v ++ (itemsTail JArr.anil ++ ']' :: rest) := by
      rw [dumpsArr_acons]
      simp
    have hsafe : restSafe (itemsTail JArr.anil ++ ']' :: rest) :=
      (rfl : restSafe (']' :: rest))
    rw [hshape, parseValue_dumps v _ f hwf.1 (by omega) hsafe]
    show (match skipWs (']' :: rest) with
          | ',' :: rest2 => parseItems f (acc.snoc v) (skipWs rest2)
          | ']' :: rest2 => some (acc.snoc v, rest2)
          | _ => none) = _
    rw [skipWs_cons ']' rest (by decide)]
    rfl
  | v, .acons v2 items2, acc, rest, f + 1, hwf, hfuel, hrest => by
    simp only [wfItems, Bool.and_eq_true] at hwf
    simp only [jarrSize] at hfuel
    rw [parseItems_succ]
    have hshape : dumpsArr (.acons v (.acons v2 items2)) ++ ']' :: rest
        = dumps v ++ (itemsTail (.acons v2 items2) ++ ']' :: rest) := by
      rw [dumpsArr_acons]
      simp
    have hsafe : restSafe (itemsTail (.acons v2 items2) ++ ']' :: rest) :=
      (by decide : isDigit10 ',' = false)
    rw [hshape, parseValue_dumps v _ f hwf.1 (by omega) hsafe]
    show (match skipWs (',' :: ' ' :: (dumpsArr (.acons v2 items2) ++ ']' :: rest)) with
          | ',' :: rest2 => parseItems f (acc.snoc v) (skipWs rest2)
          | ']' :: rest2 => some (acc.snoc v, rest2)
          | _ => none) = _
    rw [skipWs_cons ',' _ (by decide)]
    show parseItems f (acc.snoc v)
        (skipWs (' ' :: (dumpsArr (.acons v2 items2) ++ ']' :: rest)))
      = some (JArr.snocAll acc (.acons v (.acons v2 items2)), rest)
    rw [skipWs_cons_ws ' ' _ (by decide)]
    have hq : dumpsArr (.acons v2 items2) ++ ']' :: rest
        = dumps v2 ++ (itemsTail items2 ++ ']' :: rest) := by
      rw [dumpsArr_acons]
      simp
    rw [hq, skipWs_dumps v2 _, ← hq]
    rw [parseItems_dumps v2 items2 (acc.snoc v) rest f
      (by simp only [wfItems, Bool.and_eq_true]; exact hwf.2)
      (by simp only [jarrSize]; omega) hrest]
    rfl
termination_by v items _ _ _ _ _ _ => jarrSize (.acons v items)
decreasing_by all_goals simp only [jsonSize, jfieldsSize, jarrSize]; omega
end

mutual
theorem dumps_length : ∀ (v : Json), jsonSize v ≤ (dumps v).length
  | .str s => by
    simp [dumps, jsonQuote, jsonSize]
  | .jbool true => by simp [dumps, jsonSize]
  | .jbool false => by simp [dumps, jsonSize]
  | .jnull => by simp [dumps, jsonSize]
  | .jint n => by
    simp only [dumps, jsonSize]
    by_cases hneg : n < 0
    · simp [intDigits, hneg]
    · obtain ⟨d, t, _, ht⟩ := natDigits_head n.toNat
      simp [intDigits, hneg, ht]
  | .obj fs => by
    have h1 := dumpsFields_length fs
    simp only [dumps, jsonSize, List.length_cons, List.length_append, List.length_nil]
    omega
  | .arr items => by
    have h1 := dumpsArr_length items
    simp only [dumps, jsonSize, List.length_cons, List.length_append, List.length_nil]
    omega
termination_by v => jsonSize v
decreasing_by all_goals simp only [jsonSize, jfieldsSize, jarrSize]; omega
theorem dumpsFields_length : ∀ (fs : JFields), jfieldsSize fs ≤ (dumpsFields fs).length + 1
  | .nil => by simp [jfieldsSize, dumpsFields]
  | .cons k v .nil => by
    have h1 := dumps_length v
    simp only [jfieldsSize, dumpsFields, jsonQuote, List.length_append, List.length_cons,
      List.length_nil]
    omega
  | .cons k v (.cons k2 v2 rest) => by
    have h1 := dumps_length v
    have h2 := dumpsFields_length (.cons k2 v2 rest)
    simp only [jfieldsSize, dumpsFields, jsonQuote, List.length_append, List.length_cons,
      List.length_nil] at h2 ⊢
    omega
termination_by fs => jfieldsSize fs
decreasing_by all_goals simp only [jsonSize, jfieldsSize, jarrSize]; omega
theorem dumpsArr_length : ∀ (items : JArr), jarrSize items ≤ (dumpsArr items).length + 1
  | .anil => by simp [jarrSize, dumpsArr]
  | .acons v .anil => by
    have h1 := dumps_length v
    simp only [jarrSize, dumpsArr, List.length_append, List.length_cons, List.length_nil]
    omega
  | .acons v (.acons v2 rest) => by
    have h1 := dumps_length v
    have h2 := dumpsArr_length (.acons v2 rest)
    simp only [jarrSize, dumpsArr, List.length_append, List.length_cons,
      List.length_nil] at h2 ⊢
    omega
termination_by items => jarrSize items
decreasing_by all_goals simp only [jsonSize, jfieldsSize, jarrSize]; omega
end

/-- Serializing a well-formed JSON value and parsing it back yields the
original value: `json.loads(json.dumps(v)) == v`. -/
theorem loads_dumps (v : Json) (h : wfJson v = true) : loads (dumps v) = some v := by
  have hsz := dumps_length v
  have hp : parseValue ((dumps v).length + 1) (dumps v ++ []) = some (v, []) :=
    parseValue_dumps v [] ((dumps v).length + 1) h (by omega) trivial
  rw [List.append_nil] at hp
  show (match parseValue ((dumps v).length + 1) (dumps v) with
        | some (w, rest) => if skipWs rest = [] then some w else none
        | none => none) = some v
  rw [hp]
  rfl

/-! ## Protocol envelope (src/protocol/envelope.py) -/

def PROTOCOL_VERSION : Str := "YundroneBT-V1.0.0".data

def CODE_OK : Str := "OK".data

def CODE_BAD_JSON : Str := "BAD_JSON".data

def CODE_BAD_REQUEST : Str := "BAD_REQUEST".data

def CODE_UNKNOWN_COMMAND : Str := "UNKNOWN_COMMAND".data

def CODE_BUSY : Str := "BUSY".data

def CODE_IN_PROGRESS : Str := "IN_PROGRESS".data

def CODE_PROVISION_SUCCESS : Str := "PROVISION_SUCCESS".data

def CODE_PROVISION_FAIL : Str := "PROVISION_FAIL".data

def CODE_INTERNAL_ERROR : Str := "INTERNAL_ERROR".data

def CODE_TIMEOUT : Str := "TIMEOUT".data

structure CommandRequest where
  request_id : Str
  command : Str
  args : JFields
deriving DecidableEq

structure CommandResponse where
  request_id : Str
  ok : Bool
  code : Str
  text : Str
  data : Option JFields
deriving DecidableEq

structure CommandParseError where
  code : Str
  message : Str
deriving DecidableEq

/-- The raw input accepted by the codec helpers: a byte buffer or a
string. -/
inductive RawInput where
  | bytes (bs : List Nat)
  | str (s : Str)

/-- Model of `_decode_raw_text`: strings pass through, byte buffers are decoded as
UTF-8 with invalid sequences replaced. -/
def decodeRawText : RawInput → Str
  | .bytes bs => utf8DecodeReplace bs
  | .str s => s

/-- Model of `parse_request` body after `json.loads` succeeded with an object
payload.  `fresh` stands for the `new_request_id()` value drawn when the
payload has no usable `id`.  A JSON `null` value reaches Python as `None`,
which `payload.get` does not distinguish from an absent key. -/
def parseObj (fresh : Str) (fields : JFields) : Except CommandParseError CommandRequest :=
  match fields.get "cmd".data with
  | some (Json.str cmd) =>
    if pyStrip cmd = [] then
      .error ⟨CODE_BAD_REQUEST, "field `cmd` is required and must be non-empty string".data⟩
    else
      match (match fields.get "id".data with
             | none => some fresh
             | some Json.jnull => some fresh
             | some (Json.str i) => some i
             | some _ => none) with
      | none => .error ⟨CODE_BAD_REQUEST, "field `id` must be string when present".data⟩
      | some reqId =>
        if pyStrip reqId = [] then
          .error ⟨CODE_BAD_REQUEST, "field `id` must be string when present".data⟩
        else
          match fields.get "args".data with
          | none => .ok ⟨pyStrip reqId, pyStrip cmd, JFields.nil⟩
          | some (Json.obj args) => .ok ⟨pyStrip reqId, pyStrip cmd, args⟩
          | some _ => .error ⟨CODE_BAD_REQUEST, "field `args` must be object".data⟩
  | _ => .error ⟨CODE_BAD_REQUEST, "field `cmd` is required and must be non-empty string".data⟩

def parsePayload (fresh : Str) : Option Json → Except CommandParseError CommandRequest
  | none => .error ⟨CODE_BAD_JSON, "invalid JSON".data⟩
  | some (Json.obj fields) => parseObj fresh fields
  | some _ => .error ⟨CODE_BAD_REQUEST, "payload must be an object".data⟩

/-- Model of `parse_request`. -/
def parse_request (fresh : Str) (raw : RawInput) : Except CommandParseError CommandRequest :=
  parsePayload fresh (loads (decodeRawText raw))

/-- The JSON body built by `encode_request`. -/
def requestJson (r : CommandRequest) : Json :=
  .obj (.cons "id".data (.str r.request_id)
    (.cons "cmd".data (.str r.command)
      (.cons "args".data (.obj r.args)
        (.cons "v".data (.str PROTOCOL_VERSION) .nil))))

def encode_request (r : CommandRequest) : List Nat :=
  utf8Encode (dumps (requestJson r))

def response_ok (request_id : Str) (text : Str) (data : Option JFields) : CommandResponse :=
  ⟨request_id, true, CODE_OK, text, data⟩

def response_error (request_id : Str) (code : Str) (text : Str) : CommandResponse :=
  ⟨request_id, false, code, text, none⟩

/-- Model of `response_status`: copies `data` (or an empty dict), stores the `final`
flag in it, and sets `ok` from the code. -/
def response_status (request_id : Str) (code : Str) (text : Str) (final : Bool)
    (data : Option JFields) : CommandResponse :=
  let body := (data.getD JFields.nil).set "final".data (.jbool final)
  ⟨request_id, decide (code ≠ CODE_PROVISION_FAIL), code, text, some body⟩

/-- C10: for every request id, code, text, final flag and data mapping,
`response_status` sets `ok` to `code ≠ PROVISION_FAIL`; in particular BUSY
rejections and IN_PROGRESS heartbeats are emitted with `ok = true`, and
only PROVISION_FAIL statuses get `ok = false`. -/
theorem c10_response_status_ok (request_id : Str) (code : Str) (text : Str) (final : Bool)
    (data : Option JFields) :
    (response_status request_id code text final data).ok = decide (code ≠ CODE_PROVISION_FAIL)
    ∧ (response_status request_id CODE_BUSY text final data).ok = true
    ∧ (response_status request_id CODE_IN_PROGRESS text final data).ok = true
    ∧ (response_status request_id CODE_PROVISION_FAIL text final data).ok = false :=
  ⟨rfl, rfl, rfl, rfl⟩

deriving instance DecidableEq for Except

def c4Request : CommandRequest := ⟨" a".data, "x".data, JFields.nil⟩

/-- C4 counterexample: a request whose id carries leading whitespace is not
reproduced by `parse_request (encode_request r)` — the parser strips `id`
(and `cmd`), so the round trip returns the stripped request instead. -/
theorem c4_roundtrip_counterexample :
    parse_request "f".data (.bytes (encode_request c4Request))
        = .ok ⟨"a".data, "x".data, JFields.nil⟩
    ∧ parse_request "f".data (.bytes (encode_request c4Request)) ≠ .ok c4Request := by
  decide

theorem parseObj_requestJson (fresh : Str) (rid : Str) (cmd : Str) (args : JFields)
    (h1 : pyStrip cmd ≠ []) (h2 : pyStrip rid ≠ []) :
    parseObj fresh (.cons "id".data (.str rid)
      (.cons "cmd".data (.str cmd)
        (.cons "args".data (.obj args)
          (.cons "v".data (.str PROTOCOL_VERSION) .nil))))
      = .ok ⟨pyStrip rid, pyStrip cmd, args⟩ := by
  show (if pyStrip cmd = [] then
          (.error ⟨CODE_BAD_REQUEST,
            "field `cmd` is required and must be non-empty string".data⟩
            : Except CommandParseError CommandRequest)
        else if pyStrip rid = [] then
          .error ⟨CODE_BAD_REQUEST, "field `id` must be string when present".data⟩
        else .ok ⟨pyStrip rid, pyStrip cmd, args⟩)
      = .ok ⟨pyStrip rid, pyStrip cmd, args⟩
  rw [if_neg h1, if_neg h2]

/-- C4 (amended): the encode/parse round trip reproduces the request
exactly for every request whose id and command are non-empty and carry no
surrounding whitespace (the parser strips both) and whose args mapping has
well-formed unique keys; the literal claim fails for ids or commands with
surrounding whitespace. -/
theorem c4_request_roundtrip (fresh : Str) (r : CommandRequest)
    (hid : pyStrip r.request_id = r.request_id) (hid2 : r.request_id ≠ [])
    (hcmd : pyStrip r.command = r.command) (hcmd2 : r.command ≠ [])
    (hargs : wfFields r.args = true) :
    parse_request fresh (.bytes (encode_request r)) = .ok r := by
  have hwf : wfJson (requestJson r) = true := by
    show wfFields r.args && true = true
    rw [hargs]
    rfl
  have h2 : loads (decodeRawText (.bytes (encode_request r))) = some (requestJson r) := by
    show loads (utf8DecodeReplace (utf8Encode (dumps (requestJson r)))) = some (requestJson r)
    rw [utf8DecodeReplace_encode]
    exact loads_dumps _ hwf
  show parsePayload fresh (loads (decodeRawText (.bytes (encode_request r)))) = .ok r
  rw [h2]
  show parseObj fresh (.cons "id".data (.str r.request_id)
    (.cons "cmd".data (.str r.command)
      (.cons "args".data (.obj r.args)
        (.cons "v".data (.str PROTOCOL_VERSION) .nil)))) = .ok r
  rw [parseObj_requestJson fresh r.request_id r.command r.args
    (by rw [hcmd]; exact hcmd2) (by rw [hid]; exact hid2)]
  rw [hid, hcmd]

theorem c4_request_roundtrip_witness :
    parse_request "f".data (.bytes (encode_request ⟨"r1".data, "ping".data, JFields.nil⟩))
      = .ok ⟨"r1".data, "ping".data, JFields.nil⟩ :=
  c4_request_roundtrip "f".data ⟨"r1".data, "ping".data, JFields.nil⟩
    (by decide) (by decide) (by decide) (by decide) rfl

theorem parseObj_error_code (fresh : Str) (fields : JFields) (e : CommandParseError) :
    parseObj fresh fields = .error e → e.code = CODE_BAD_REQUEST := by
  unfold parseObj
  intro h
  repeat' split at h
  all_goals first
    | exact (Except.error.inj h) ▸ rfl
    | exact absurd h (by simp)

/-- C5 (amended): `parse_request` fails `BAD_JSON` exactly when the decoded
text is not valid JSON; fails `BAD_REQUEST` for a non-object payload, for a
missing, blank or non-string `cmd`, for an `id` that is present with a
non-string non-null value or a blank string value, and for a present
non-object `args`; uses the freshly generated id when `id` is absent and an
empty mapping when `args` is absent; and replacement-decodes invalid UTF-8
instead of crashing.  (A present JSON `null` id is treated as absent, not
rejected.) -/
theorem c5_parse_request_errors (fresh : Str) (raw : RawInput) :
    ((∃ m, parse_request fresh raw = .error ⟨CODE_BAD_JSON, m⟩)
        ↔ loads (decodeRawText raw) = none)
    ∧ (∀ v, loads (decodeRawText raw) = some v → (∀ fs, v ≠ Json.obj fs) →
        parse_request fresh raw
          = .error ⟨CODE_BAD_REQUEST, "payload must be an object".data⟩)
    ∧ (∀ fs, loads (decodeRawText raw) = some (Json.obj fs) → fs.get "cmd".data = none →
        parse_request fresh raw = .error ⟨CODE_BAD_REQUEST,
          "field `cmd` is required and must be non-empty string".data⟩)
    ∧ (∀ fs c, loads (decodeRawText raw) = some (Json.obj fs) →
        fs.get "cmd".data = some (Json.str c) → pyStrip c = [] →
        parse_request fresh raw = .error ⟨CODE_BAD_REQUEST,
          "field `cmd` is required and must be non-empty string".data⟩)
    ∧ (∀ fs v, loads (decodeRawText raw) = some (Json.obj fs) →
        fs.get "cmd".data = some v → (∀ s, v ≠ Json.str s) →
        parse_request fresh raw = .error ⟨CODE_BAD_REQUEST,
          "field `cmd` is required and must be non-empty string".data⟩)
    ∧ (∀ fs c v, loads (decodeRawText raw) = some (Json.obj fs) →
        fs.get "cmd".data = some (Json.str c) → pyStrip c ≠ [] →
        fs.get "id".data = some v → (∀ s, v ≠ Json.str s) → v ≠ Json.jnull →
        parse_request fresh raw = .error ⟨CODE_BAD_REQUEST,
          "field `id` must be string when present".data⟩)
    ∧ (∀ fs c i, loads (decodeRawText raw) = some (Json.obj fs) →
        fs.get "cmd".data = some (Json.str c) → pyStrip c ≠ [] →
        fs.get "id".data = some (Json.str i) → pyStrip i = [] →
        parse_request fresh raw = .error ⟨CODE_BAD_REQUEST,
          "field `id` must be string when present".data⟩)
    ∧ (∀ fs c, loads (decodeRawText raw) = some (Json.obj fs) →
        fs.get "cmd".data = some (Json.str c) → pyStrip c ≠ [] →
        fs.get "id".data = none → pyStrip fresh ≠ [] →
        fs.get "args".data = none →
        parse_request fresh raw = .ok ⟨pyStrip fresh, pyStrip c, JFields.nil⟩)
    ∧ (∀ fs c v, loads (decodeRawText raw) = some (Json.obj fs) →
        fs.get "cmd".data = some (Json.str c) → pyStrip c ≠ [] →
        fs.get "id".data = none → pyStrip fresh ≠ [] →
        fs.get "args".data = some v → (∀ a, v ≠ Json.obj a) →
        parse_request fresh raw = .error ⟨CODE_BAD_REQUEST,
          "field `args` must be object".data⟩)
    ∧ decodeRawText (RawInput.bytes [0xFF]) = [replacementChar]
    ∧ parse_request fresh (RawInput.bytes [0xFF])
        = .error ⟨CODE_BAD_JSON, "invalid JSON".data⟩ := by
  refine ⟨⟨?_, ?_⟩, ?_, ?_, ?_, ?_, ?_, ?_, ?_, ?_, rfl, rfl⟩
  · rintro ⟨m, hm⟩
    cases hv : loads (decodeRawText raw) with
    | none => rfl
    | some v =>
      rw [show parse_request fresh raw
            = parsePayload fresh (loads (decodeRawText raw)) from rfl, hv] at hm
      cases v with
      | obj fs =>
        exact absurd (parseObj_error_code fresh fs _ hm)
          (by decide : ¬ CODE_BAD_JSON = CODE_BAD_REQUEST)
      | str s =>
        exact absurd (congrArg CommandParseError.code (Except.error.inj hm))
          (by decide : ¬ CODE_BAD_REQUEST = CODE_BAD_JSON)
      | jbool b =>
        exact absurd (congrArg CommandParseError.code (Except.error.inj hm))
          (by decide : ¬ CODE_BAD_REQUEST = CODE_BAD_JSON)
      | jint n =>
        exact absurd (congrArg CommandParseError.code (Except.error.inj hm))
          (by decide : ¬ CODE_BAD_REQUEST = CODE_BAD_JSON)
      | jnull =>
        exact absurd (congrArg CommandParseError.code (Except.error.inj hm))
          (by decide : ¬ CODE_BAD_REQUEST = CODE_BAD_JSON)
      | arr a =>
        exact absurd (congrArg CommandParseError.code (Except.error.inj hm))
          (by decide : ¬ CODE_BAD_REQUEST = CODE_BAD_JSON)
  · intro h
    refine ⟨"invalid JSON".data, ?_⟩
    show parsePayload fresh (loads (decodeRawText raw)) = _
    rw [h]
    rfl
  · intro v hv hno
    show parsePayload fresh (loads (decodeRawText raw)) = _
    rw [hv]
    cases v with
    | obj fs => exact absurd rfl (hno fs)
    | str s => rfl
    | jbool b => rfl
    | jint n => rfl
    | jnull => rfl
    | arr a => rfl
  · intro fs hv hget
    show parsePayload fresh (loads (decodeRawText raw)) = _
    rw [hv]
    show parseObj fresh fs = _
    simp only [parseObj, hget]
  · intro fs c hv hget hblank
    show parsePayload fresh (loads (decodeRawText raw)) = _
    rw [hv]
    show parseObj fresh fs = _
    simp only [parseObj, hget]
    rw [if_pos hblank]
  · intro fs v hv hget hns
    show parsePayload fresh (loads (decodeRawText raw)) = _
    rw [hv]
    show parseObj fresh fs = _
    cases v with
    | str s => exact absurd rfl (hns s)
    | jbool b => simp only [parseObj, hget]
    | jint n => simp only [parseObj, hget]
    | jnull => simp only [parseObj, hget]
    | obj o => simp only [parseObj, hget]
    | arr a => simp only [parseObj, hget]
  · intro fs c v hv hget hcne hid hnstr hnnull
    show parsePayload fresh (loads (decodeRawText raw)) = _
    rw [hv]
    show parseObj fresh fs = _
    cases v with
    | str s => exact absurd rfl (hnstr s)
    | jnull => exact absurd rfl hnnull
    | jbool b => simp only [parseObj, hget]; rw [if_neg hcne]; simp only [hid]
    | jint n => simp only [parseObj, hget]; rw [if_neg hcne]; simp only [hid]
    | obj o => simp only [parseObj, hget]; rw [if_neg hcne]; simp only [hid]
    | arr a => simp only [parseObj, hget]; rw [if_neg hcne]; simp only [hid]
  · intro fs c i hv hget hcne hid hblank
    show parsePayload fresh (loads (decodeRawText raw)) = _
    rw [hv]
    show parseObj fresh fs = _
    simp only [parseObj, hget]
    rw [if_neg hcne]
    simp only [hid]
    rw [if_pos hblank]
  · intro fs c hv hget hcne hid hfresh hargs
    show parsePayload fresh (loads (decodeRawText raw)) = _
    rw [hv]
    show parseObj fresh fs = _
    simp only [parseObj, hget]
    rw [if_neg hcne]
    simp only [hid]
    rw [if_neg hfresh]
    simp only [hargs]
  · intro fs c v hv hget hcne hid hfresh hargs hno
    show parsePayload fresh (loads (decodeRawText raw)) = _
    rw [hv]
    show parseObj fresh fs = _
    cases v with
    | obj o => exact absurd rfl (hno o)
    | str s => simp only [parseObj, hget]; rw [if_neg hcne]; simp only [hid]
               rw [if_neg hfresh]; simp only [hargs]
    | jbool b => simp only [parseObj, hget]; rw [if_neg hcne]; simp only [hid]
                 rw [if_neg hfresh]; simp only [hargs]
    | jint n => simp only [parseObj, hget]; rw [if_neg hcne]; simp only [hid]
                rw [if_neg hfresh]; simp only [hargs]
    | jnull => simp only [parseObj, hget]; rw [if_neg hcne]; simp only [hid]
               rw [if_neg hfresh]; simp only [hargs]
    | arr a => simp only [parseObj, hget]; rw [if_neg hcne]; simp only [hid]
               rw [if_neg hfresh]; simp only [hargs]

/-- C5 counterexample for the id clause: a payload carrying `id` with the
JSON value `null` is accepted with a freshly generated id, not rejected
with BAD_REQUEST, because `payload.get("id")` cannot distinguish a null
value from an absent key. -/
theorem c5_null_id_counterexample :
    parse_request "fresh-id".data
        (.bytes (utf8Encode "\x7b\"cmd\": \"x\", \"id\": null\x7d".data))
      = .ok ⟨"fresh-id".data, "x".data, JFields.nil⟩ := by decide

theorem c5_parse_request_errors_witness :
    parse_request "f".data (RawInput.str "[1, 2]".data)
      = .error ⟨CODE_BAD_REQUEST, "payload must be an object".data⟩
    ∧ parse_request "f".data (RawInput.bytes [0xFF])
      = .error ⟨CODE_BAD_JSON, "invalid JSON".data⟩ :=
  ⟨(c5_parse_request_errors "f".data (RawInput.str "[1, 2]".data)).2.1
      (Json.arr (.acons (.jint 1) (.acons (.jint 2) .anil))) (by decide)
      (fun fs h => Json.noConfusion h),
   (c5_parse_request_errors "f".data
      (RawInput.bytes [0xFF])).2.2.2.2.2.2.2.2.2.2⟩

/-! ## Command runtime and dispatcher (src/commands/) -/

/-- Outcome of awaiting a handler under `asyncio.wait_for`: it returns a
response, exceeds the timeout, or raises some other exception carrying a
type name and message. -/
inductive HandlerOutcome where
  | returns (resp : CommandResponse)
  | timesOut
  | raises (ty : Str) (msg : Str)

/-- Python `f"\x7bt:.1f\x7bs"`-style rendering for a non-negative timeout
held as tenths of a second. -/
def formatTenths (tenths : Nat) : Str :=
  natDigits (tenths / 10) ++ '.' :: natDigits (tenths % 10)

/-- Model of `CommandRuntime.run`: a timeout becomes a TIMEOUT response, any other
exception is logged and becomes an INTERNAL_ERROR response.  The second
component is the list of log lines emitted. -/
def CommandRuntime.run (request_id : Str) (timeoutTenths : Nat) (outcome : HandlerOutcome) :
    CommandResponse × List Str :=
  match outcome with
  | .returns resp => (resp, [])
  | .timesOut =>
    (response_error request_id CODE_TIMEOUT
      ("Command timeout after ".data ++ formatTenths timeoutTenths ++ "s".data), [])
  | .raises ty msg =>
    (response_error request_id CODE_INTERNAL_ERROR (ty ++ ": ".data ++ msg),
     ["command execution error: ".data ++ ty ++ ": ".data ++ msg])

structure CommandArgSpec where
  name : Str
  type_name : Str
  required : Bool
deriving DecidableEq

structure CommandSpec where
  name : Str
  timeoutTenths : Nat
  args : List CommandArgSpec

/-- Model of `payload.get(name)`: a JSON `null` value reaches Python as `None`,
indistinguishable from an absent key. -/
def pyGet (fs : JFields) (k : Str) : Option Json :=
  match fs.get k with
  | some Json.jnull => none
  | o => o

def isBlankStr : Option Json → Bool
  | some (Json.str s) => (pyStrip s).isEmpty
  | _ => false

def isStrVal : Option Json → Bool
  | some (Json.str _) => true
  | _ => false

/-- Model of `CommandSpec.validate_args`: first failing argument wins. -/
def validate_args : List CommandArgSpec → JFields → Option Str
  | [], _ => none
  | arg :: rest, payload =>
    if arg.required && ((pyGet payload arg.name).isNone || isBlankStr (pyGet payload arg.name)) then
      some ("field `args.".data ++ arg.name ++ "` is required".data)
    else if (pyGet payload arg.name).isNone then
      validate_args rest payload
    else if decide (arg.type_name = "str".data) && !isStrVal (pyGet payload arg.name) then
      some ("field `args.".data ++ arg.name ++ "` must be string".data)
    else
      validate_args rest payload

structure RegisteredCommand where
  spec : CommandSpec
  handler : CommandRequest → HandlerOutcome

/-- Model of `self._registry.get(request.command)` over the insertion-ordered
registry. -/
def lookupCmd : List (Str × RegisteredCommand) → Str → Option RegisteredCommand
  | [], _ => none
  | (k, rc) :: rest, key => if k = key then some rc else lookupCmd rest key

/-- Model of `CommandDispatcher.dispatch`, returning the response and the log lines
emitted by the runtime. -/
def dispatch (registry : List (Str × RegisteredCommand)) (request : CommandRequest) :
    CommandResponse × List Str :=
  match lookupCmd registry request.command with
  | none =>
    (response_error request.request_id CODE_UNKNOWN_COMMAND
      ("Unknown command: ".data ++ request.command), [])
  | some registered =>
    match validate_args registered.spec.args request.args with
    | some validation_error =>
      (response_error request.request_id CODE_BAD_REQUEST validation_error, [])
    | none =>
      CommandRuntime.run request.request_id registered.spec.timeoutTenths
        (registered.handler request)

/-- C2: once a registered command's handler is invoked, dispatch always
returns a response rather than propagating a failure: a timeout yields an
ok=false TIMEOUT response quoting the timeout, any other exception yields
an ok=false INTERNAL_ERROR response carrying the exception type and
message and is also written to the logger, and a normal return is passed
through. -/
theorem c2_dispatch_handles_failures (registry : List (Str × RegisteredCommand))
    (request : CommandRequest) (rc : RegisteredCommand)
    (hfound : lookupCmd registry request.command = some rc)
    (hvalid : validate_args rc.spec.args request.args = none) :
    (rc.handler request = HandlerOutcome.timesOut →
      dispatch registry request
        = (CommandResponse.mk request.request_id false CODE_TIMEOUT
            ("Command timeout after ".data ++ formatTenths rc.spec.timeoutTenths ++ "s".data)
            none, []))
    ∧ (∀ ty msg, rc.handler request = HandlerOutcome.raises ty msg →
      dispatch registry request
        = (CommandResponse.mk request.request_id false CODE_INTERNAL_ERROR
            (ty ++ ": ".data ++ msg) none,
           ["command execution error: ".data ++ ty ++ ": ".data ++ msg]))
    ∧ (∀ resp, rc.handler request = HandlerOutcome.returns resp →
      dispatch registry request = (resp, [])) := by
  refine ⟨?_, ?_, ?_⟩
  · intro h
    show (match lookupCmd registry request.command with
          | none =>
            (response_error request.request_id CODE_UNKNOWN_COMMAND
              ("Unknown command: ".data ++ request.command), [])
          | some registered =>
            match validate_args registered.spec.args request.args with
            | some validation_error =>
              (response_error request.request_id CODE_BAD_REQUEST validation_error, [])
            | none =>
              CommandRuntime.run request.request_id registered.spec.timeoutTenths
                (registered.handler request)) = _
    rw [hfound]
    simp only [hvalid, h]
    rfl
  · intro ty msg h
    show (match lookupCmd registry request.command with
          | none =>
            (response_error request.request_id CODE_UNKNOWN_COMMAND
              ("Unknown command: ".data ++ request.command), [])
          | some registered =>
            match validate_args registered.spec.args request.args with
            | some validation_error =>
              (response_error request.request_id CODE_BAD_REQUEST validation_error, [])
            | none =>
              CommandRuntime.run request.request_id registered.spec.timeoutTenths
                (registered.handler request)) = _
    rw [hfound]
    simp only [hvalid, h]
    rfl
  · intro resp h
    show (match lookupCmd registry request.command with
          | none =>
            (response_error request.request_id CODE_UNKNOWN_COMMAND
              ("Unknown command: ".data ++ request.command), [])
          | some registered =>
            match validate_args registered.spec.args request.args with
            | some validation_error =>
              (response_error request.request_id CODE_BAD_REQUEST validation_error, [])
            | none =>
              CommandRuntime.run request.request_id registered.spec.timeoutTenths
                (registered.handler request)) = _
    rw [hfound]
    simp only [hvalid, h]
    rfl

def c2Spec : CommandSpec := ⟨"ping".data, 50, []⟩

def c2Registered : RegisteredCommand := ⟨c2Spec, fun _ => HandlerOutcome.timesOut⟩

theorem c2_dispatch_handles_failures_witness :
    dispatch [("ping".data, c2Registered)] ⟨"r1".data, "ping".data, JFields.nil⟩
      = (CommandResponse.mk "r1".data false CODE_TIMEOUT
          "Command timeout after 5.0s".data none, []) :=
  (c2_dispatch_handles_failures [("ping".data, c2Registered)]
    ⟨"r1".data, "ping".data, JFields.nil⟩ c2Registered rfl rfl).1 rfl

/-- The per-argument failure condition checked by `validate_args`: a
required argument that is absent or a blank string, or a present argument
declared `str` whose value is not a string. -/
def argFails (arg : CommandArgSpec) (payload : JFields) : Bool :=
  (arg.required && ((pyGet payload arg.name).isNone || isBlankStr (pyGet payload arg.name)))
  || (!(pyGet payload arg.name).isNone && decide (arg.type_name = "str".data)
        && !isStrVal (pyGet payload arg.name))

theorem validate_args_some_of_fail : ∀ (args : List CommandArgSpec) (arg : CommandArgSpec)
    (payload : JFields), arg ∈ args → argFails arg payload = true →
    ∃ err, validate_args args payload = some err
  | a :: rest, arg, payload, hmem, hfail => by
    rw [validate_args]
    rcases List.mem_cons.mp hmem with heq | hmem2
    · subst heq
      by_cases h1 : (arg.required
          && ((pyGet payload arg.name).isNone || isBlankStr (pyGet payload arg.name))) = true
      · rw [if_pos h1]
        exact ⟨_, rfl⟩
      · rw [if_neg h1]
        simp only [argFails, Bool.or_eq_true, Bool.and_eq_true, Bool.not_eq_true'] at hfail
        rcases hfail with hl | hr
        · exact absurd (by
            simp only [hl.1, Bool.true_and, Bool.or_eq_true]
            exact hl.2 : _ = true) h1
        · rw [if_neg (by simp [hr.1.1])]
          rw [if_pos (by simp [hr.1.2, hr.2])]
          exact ⟨_, rfl⟩
    · by_cases h1 : (a.required
          && ((pyGet payload a.name).isNone || isBlankStr (pyGet payload a.name))) = true
      · rw [if_pos h1]
        exact ⟨_, rfl⟩
      · rw [if_neg h1]
        by_cases h2 : (pyGet payload a.name).isNone = true
        · rw [if_pos h2]
          exact validate_args_some_of_fail rest arg payload hmem2 hfail
        · rw [if_neg h2]
          by_cases h3 : (decide (a.type_name = "str".data)
              && !isStrVal (pyGet payload a.name)) = true
          · rw [if_pos h3]
            exact ⟨_, rfl⟩
          · rw [if_neg h3]
            exact validate_args_some_of_fail rest arg payload hmem2 hfail

/-- C6: dispatch answers an unregistered command with an ok=false
UNKNOWN_COMMAND response naming the command; a validation failure — a
required argument absent or blank, or a `str`-typed argument present with
a non-string value — yields an ok=false BAD_REQUEST response; both echo
the request's id. -/
theorem c6_dispatch_rejections (registry : List (Str × RegisteredCommand))
    (request : CommandRequest) :
    (lookupCmd registry request.command = none →
      dispatch registry request
        = (CommandResponse.mk request.request_id false CODE_UNKNOWN_COMMAND
            ("Unknown command: ".data ++ request.command) none, []))
    ∧ (∀ rc err, lookupCmd registry request.command = some rc →
        validate_args rc.spec.args request.args = some err →
        dispatch registry request
          = (CommandResponse.mk request.request_id false CODE_BAD_REQUEST err none, []))
    ∧ (∀ rc arg, lookupCmd registry request.command = some rc →
        arg ∈ rc.spec.args → argFails arg request.args = true →
        ∃ err, dispatch registry request
          = (CommandResponse.mk request.request_id false CODE_BAD_REQUEST err none, [])) := by
  refine ⟨?_, ?_, ?_⟩
  · intro h
    show (match lookupCmd registry request.command with
          | none =>
            (response_error request.request_id CODE_UNKNOWN_COMMAND
              ("Unknown command: ".data ++ request.command), [])
          | some registered =>
            match validate_args registered.spec.args request.args with
            | some validation_error =>
              (response_error request.request_id CODE_BAD_REQUEST validation_error, [])
            | none =>
              CommandRuntime.run request.request_id registered.spec.timeoutTenths
                (registered.handler request)) = _
    rw [h]
    rfl
  · intro rc err hfound hval
    show (match lookupCmd registry request.command with
          | none =>
            (response_error request.request_id CODE_UNKNOWN_COMMAND
              ("Unknown command: ".data ++ request.command), [])
          | some registered =>
            match validate_args registered.spec.args request.args with
            | some validation_error =>
              (response_error request.request_id CODE_BAD_REQUEST validation_error, [])
            | none =>
              CommandRuntime.run request.request_id registered.spec.timeoutTenths
                (registered.handler request)) = _
    rw [hfound]
    simp only [hval]
    rfl
  · intro rc arg hfound hmem hfail
    obtain ⟨err, herr⟩ := validate_args_some_of_fail rc.spec.args arg request.args hmem hfail
    refine ⟨err, ?_⟩
    show (match lookupCmd registry request.command with
          | none =>
            (response_error request.request_id CODE_UNKNOWN_COMMAND
              ("Unknown command: ".data ++ request.command), [])
          | some registered =>
            match validate_args registered.spec.args request.args with
            | some validation_error =>
              (response_error request.request_id CODE_BAD_REQUEST validation_error, [])
            | none =>
              CommandRuntime.run request.request_id registered.spec.timeoutTenths
                (registered.handler request)) = _
    rw [hfound]
    simp only [herr]
    rfl

theorem c6_dispatch_rejections_witness :
    dispatch [] ⟨"r9".data, "nope".data, JFields.nil⟩
      = (CommandResponse.mk "r9".data false CODE_UNKNOWN_COMMAND
          "Unknown command: nope".data none, []) :=
  (c6_dispatch_rejections [] ⟨"r9".data, "nope".data, JFields.nil⟩).1 rfl

/-! ## Provisioning gateway (src/ble/server_gateway.py, provision_cmd.py) -/

structure GatewayState where
  lockLocked : Bool
  provisionTaskPending : Bool
deriving DecidableEq

/-- Observable actions of `_start_provision` on acceptance, in program
order. -/
inductive StartEvent where
  | setPendingTrue
  | spawnProvisionTask
deriving DecidableEq

/-- Model of `_start_provision`: rejects while the connect lock is held or the
pending flag is set; otherwise sets the pending flag and only then spawns
the background task.  Returns the accepted flag, the new state and the
ordered action trace. -/
def start_provision (st : GatewayState) : Bool × GatewayState × List StartEvent :=
  if st.lockLocked || st.provisionTaskPending then (false, st, [])
  else (true, { st with provisionTaskPending := true },
        [StartEvent.setPendingTrue, StartEvent.spawnProvisionTask])

def isHexDigitPy (c : Char) : Bool :=
  isDigit10 c || ('a' ≤ c && c ≤ 'f') || ('A' ≤ c && c ≤ 'F')

def _is_valid_wifi_password (password : Str) : Bool :=
  if password = [] then true
  else if 8 ≤ password.length && password.length ≤ 63 then true
  else if password.length = 64 && password.all isHexDigitPy then true
  else false

/-- The provision command handler, given whether `start_provision`
accepted the attempt. -/
def provision_handler (request_id : Str) (ssid : Str) (password : Str) (accepted : Bool) :
    CommandResponse :=
  if !(_is_valid_wifi_password password) then
    response_error request_id CODE_BAD_REQUEST
      "Invalid Wi-Fi password: use empty(open), 8-63 chars, or 64 hex chars.".data
  else if !accepted then
    response_status request_id CODE_BUSY "Provisioning in progress".data true none
  else
    response_status request_id CODE_IN_PROGRESS
      ("Provision accepted for SSID=".data ++ ssid) false none

/-- Result of `connect_and_get_ip` as observed by `_provision_wifi`. -/
inductive ConnectResult where
  | fail (message : Str)
  | success (ip : Str)

/-- Model of `_provision_wifi`: publishes BUSY if the lock is already held, else
runs the attempt under the lock and publishes progress and the final
status; the `finally` block clears the pending flag on every path. -/
def provision_wifi (st : GatewayState) (request_id : Str) (ssid : Str) (user : Str)
    (result : ConnectResult) : GatewayState × List CommandResponse :=
  if st.lockLocked then
    ({ st with provisionTaskPending := false },
     [response_status request_id CODE_BUSY "Provisioning in progress".data true none])
  else
    match result with
    | .fail message =>
      ({ st with lockLocked := false, provisionTaskPending := false },
       [response_status request_id CODE_IN_PROGRESS ("Connecting SSID=".data ++ ssid) false none,
        response_status request_id CODE_PROVISION_FAIL message true none])
    | .success ip =>
      ({ st with lockLocked := false, provisionTaskPending := false },
       [response_status request_id CODE_IN_PROGRESS ("Connecting SSID=".data ++ ssid) false none,
        response_status request_id CODE_PROVISION_SUCCESS ("Success_IP:".data ++ ip) true
          (some (.cons "ip".data (.str ip) (.cons "ssid".data (.str ssid)
            (.cons "user".data (.str user) .nil))))])

/-- C3: while the connect lock is held or the pending flag is set,
`start_provision` rejects without touching the state or spawning anything,
and the provision command answers BUSY with `data.final = true`; on
acceptance the pending flag is set before the task is spawned; and
`_provision_wifi` clears the pending flag on every completion path. -/
theorem c3_provision_busy_pending (st : GatewayState) (request_id : Str) (ssid : Str)
    (password : Str) (user : Str) (result : ConnectResult) :
    ((st.lockLocked || st.provisionTaskPending) = true →
      start_provision st = (false, st, []))
    ∧ (_is_valid_wifi_password password = true →
      provision_handler request_id ssid password false
        = response_status request_id CODE_BUSY "Provisioning in progress".data true none
      ∧ (provision_handler request_id ssid password false).code = CODE_BUSY
      ∧ (provision_handler request_id ssid password false).data
          = some (JFields.nil.set "final".data (Json.jbool true)))
    ∧ ((st.lockLocked || st.provisionTaskPending) = false →
      start_provision st
        = (true, { st with provisionTaskPending := true },
           [StartEvent.setPendingTrue, StartEvent.spawnProvisionTask]))
    ∧ (provision_wifi st request_id ssid user result).1.provisionTaskPending = false := by
  refine ⟨?_, ?_, ?_, ?_⟩
  · intro h
    show (if st.lockLocked || st.provisionTaskPending then (false, st, []) else _) = _
    rw [if_pos h]
  · intro h
    have hb : (!(_is_valid_wifi_password password)) = false := by rw [h]; rfl
    have he : provision_handler request_id ssid password false
        = response_status request_id CODE_BUSY "Provisioning in progress".data true none := by
      unfold provision_handler
      rw [hb]
      rfl
    exact ⟨he, by rw [he]; rfl, by rw [he]; rfl⟩
  · intro h
    show (if st.lockLocked || st.provisionTaskPending then (false, st, []) else _) = _
    rw [h]
    rfl
  · unfold provision_wifi
    split
    · rfl
    · split <;> rfl

theorem c3_provision_busy_pending_witness :
    start_provision ⟨true, false⟩ = (false, ⟨true, false⟩, [])
    ∧ (provision_handler "r2".data "net".data [] false).code = CODE_BUSY :=
  ⟨(c3_provision_busy_pending ⟨true, false⟩ "r2".data "net".data [] "u".data
      (ConnectResult.fail [])).1 rfl,
   ((c3_provision_busy_pending ⟨true, false⟩ "r2".data "net".data [] "u".data
      (ConnectResult.fail [])).2.1 rfl).2.1⟩

/-! ## GATT write strategy (src/client/ble_gatt.py, src/client/command_client.py,
src/client/link_exchange.py) -/

inductive WriteMode where
  | withResponse
  | withResponseAssumeSent
  | withoutResponse
  | withoutResponseSticky
deriving DecidableEq

structure WriteConfig where
  allow_no_response : Bool
  assume_sent_on_ack_quirk : Bool
deriving DecidableEq

structure WriteState where
  sticky_no_response : Bool
deriving DecidableEq

structure WriteOutcome where
  mode : WriteMode
  next_state : WriteState
  detail : Option Str
deriving DecidableEq

/-- One GATT operation attempted on the wire. -/
inductive GattOp where
  | writeAck (payload : List Nat)
  | writeNoAck (payload : List Nat)
deriving DecidableEq

/-- How the device answers the acknowledged write attempt. -/
inductive AckWriteResult where
  | succeeds
  | raisesMsg (message : Str)
deriving DecidableEq

def is_ack_quirk_error (message : Str) : Bool :=
  decide (List.IsInfix "Code=14".data message)
  || decide (List.IsInfix "Unlikely error".data message)

def is_cbatt_error (message : Str) : Bool :=
  decide (List.IsInfix "CBATTErrorDomain".data message)

/-- Model of `write_with_strategy`: returns the trace of GATT operations attempted
and either the outcome or the propagated exception message. -/
def write_with_strategy (payload : List Nat) (config : WriteConfig) (state : WriteState)
    (ackResult : AckWriteResult) : List GattOp × Except Str WriteOutcome :=
  if state.sticky_no_response && config.allow_no_response then
    ([.writeNoAck payload], .ok ⟨.withoutResponseSticky, state, none⟩)
  else
    match ackResult with
    | .succeeds => ([.writeAck payload], .ok ⟨.withResponse, ⟨false⟩, none⟩)
    | .raisesMsg message =>
      if is_ack_quirk_error message && config.assume_sent_on_ack_quirk then
        ([.writeAck payload], .ok ⟨.withResponseAssumeSent, state, some message⟩)
      else if !(is_cbatt_error message) || !config.allow_no_response then
        ([.writeAck payload], .error message)
      else
        ([.writeAck payload, .writeNoAck payload], .ok ⟨.withoutResponse, ⟨true⟩, none⟩)

/-- C7: `write_with_strategy` follows the per-write case analysis of the
spec: sticky+allowed writes unacknowledged with mode
`without_response(sticky)`; otherwise it attempts an acknowledged write,
reporting `with_response` with cleared stickiness on success; an
ack-quirk failure with assume-sent reports `with_response(assume_sent)`
without retrying; a CBATT write-not-permitted failure with fallback
allowed retries the same payload unacknowledged with sticky set in the
returned state; any other failure propagates. -/
theorem c7_write_with_strategy_cases (payload : List Nat) (config : WriteConfig)
    (state : WriteState) (ackResult : AckWriteResult) (message : Str) :
    ((state.sticky_no_response && config.allow_no_response) = true →
      write_with_strategy payload config state ackResult
        = ([.writeNoAck payload], .ok ⟨.withoutResponseSticky, state, none⟩))
    ∧ ((state.sticky_no_response && config.allow_no_response) = false →
      ackResult = .succeeds →
      write_with_strategy payload config state ackResult
        = ([.writeAck payload], .ok ⟨.withResponse, ⟨false⟩, none⟩))
    ∧ ((state.sticky_no_response && config.allow_no_response) = false →
      ackResult = .raisesMsg message →
      (is_ack_quirk_error message && config.assume_sent_on_ack_quirk) = true →
      write_with_strategy payload config state ackResult
        = ([.writeAck payload], .ok ⟨.withResponseAssumeSent, state, some message⟩))
    ∧ ((state.sticky_no_response && config.allow_no_response) = false →
      ackResult = .raisesMsg message →
      (is_ack_quirk_error message && config.assume_sent_on_ack_quirk) = false →
      (!(is_cbatt_error message) || !config.allow_no_response) = true →
      write_with_strategy payload config state ackResult
        = ([.writeAck payload], .error message))
    ∧ ((state.sticky_no_response && config.allow_no_response) = false →
      ackResult = .raisesMsg message →
      (is_ack_quirk_error message && config.assume_sent_on_ack_quirk) = false →
      (!(is_cbatt_error message) || !config.allow_no_response) = false →
      write_with_strategy payload config state ackResult
        = ([.writeAck payload, .writeNoAck payload], .ok ⟨.withoutResponse, ⟨true⟩, none⟩)) := by
  refine ⟨?_, ?_, ?_, ?_, ?_⟩
  · intro h1
    unfold write_with_strategy
    rw [if_pos h1]
  · intro h1 h2
    subst h2
    unfold write_with_strategy
    rw [h1, if_neg (by decide : ¬ (false = true))]
  · intro h1 h2 h3
    subst h2
    unfold write_with_strategy
    rw [h1, if_neg (by decide : ¬ (false = true))]
    show (if (is_ack_quirk_error message && config.assume_sent_on_ack_quirk) = true
          then _ else _) = _
    rw [if_pos h3]
  · intro h1 h2 h3 h4
    subst h2
    unfold write_with_strategy
    rw [h1, if_neg (by decide : ¬ (false = true))]
    show (if (is_ack_quirk_error message && config.assume_sent_on_ack_quirk) = true
          then _ else _) = _
    rw [if_neg (by simp [h3])]
    show (if (!(is_cbatt_error message) || !config.allow_no_response) = true
          then _ else _) = _
    rw [if_pos h4]
  · intro h1 h2 h3 h4
    subst h2
    unfold write_with_strategy
    rw [h1, if_neg (by decide : ¬ (false = true))]
    show (if (is_ack_quirk_error message && config.assume_sent_on_ack_quirk) = true
          then _ else _) = _
    rw [if_neg (by simp [h3])]
    show (if (!(is_cbatt_error message) || !config.allow_no_response) = true
          then _ else _) = _
    rw [if_neg (by simp [h4])]

theorem c7_write_with_strategy_cases_witness :
    write_with_strategy [1] ⟨true, true⟩ ⟨false⟩
        (.raisesMsg "CBATTErrorDomain error 3".data)
      = ([.writeAck [1], .writeNoAck [1]], .ok ⟨.withoutResponse, ⟨true⟩, none⟩) :=
  (c7_write_with_strategy_cases [1] ⟨true, true⟩ ⟨false⟩
      (.raisesMsg "CBATTErrorDomain error 3".data)
      "CBATTErrorDomain error 3".data).2.2.2.2 rfl rfl (by decide) (by decide)

/-- Model of `write_with_fallback` (command_client.py): every call builds a fresh
`WriteState(False)` instead of threading the previous outcome's
`next_state`. -/
def write_with_fallback (payload : List Nat) (ackResult : AckWriteResult) :
    List GattOp × Except Str WriteOutcome :=
  write_with_strategy payload ⟨true, true⟩ ⟨false⟩ ackResult

/-- C8 counterexample: after a first `write_with_fallback` call has fallen
back to unacknowledged mode (sticky in its returned state), a second
`write_with_fallback` call still attempts an acknowledged write first,
because the sticky state is discarded; threading the state (as
`WriteSession` does) would have written unacknowledged only. -/
theorem c8_fallback_counterexample :
    (write_with_fallback [1] (.raisesMsg "CBATTErrorDomain err".data)).2
      = .ok ⟨.withoutResponse, ⟨true⟩, none⟩
    ∧ (write_with_fallback [2] (.raisesMsg "CBATTErrorDomain err".data)).1
      = [.writeAck [2], .writeNoAck [2]]
    ∧ (write_with_strategy [2] ⟨true, true⟩ ⟨true⟩
        (.raisesMsg "CBATTErrorDomain err".data)).1 = [.writeNoAck [2]] := by
  decide

/-- Model of `WriteSession.write` (link_exchange.py): runs the strategy and threads
`outcome.next_state` into the session state. -/
def sessionWrite (config : WriteConfig) (st : WriteState) (payload : List Nat)
    (ackResult : AckWriteResult) : WriteState × (List GattOp × Except Str WriteOutcome) :=
  match write_with_strategy payload config st ackResult with
  | (ops, .ok outcome) => (outcome.next_state, (ops, .ok outcome))
  | (ops, .error e) => (st, (ops, .error e))

/-- C8 (amended): the sticky fallback is only honoured when the state is
threaded between writes, as `WriteSession` does: in a sticky state every
`sessionWrite` performs exactly one unacknowledged write, never
re-attempts an acknowledged write, and keeps the state sticky; and the
CBATT fallback path leaves the threaded state sticky.  `write_with_fallback`
in command_client.py does not thread the state, so its next call re-attempts
an acknowledged write. -/
theorem c8_sticky_threaded (config : WriteConfig) (st : WriteState) (payload : List Nat)
    (ackResult : AckWriteResult) :
    (st.sticky_no_response = true → config.allow_no_response = true →
      sessionWrite config st payload ackResult
        = (st, ([.writeNoAck payload], .ok ⟨.withoutResponseSticky, st, none⟩)))
    ∧ (∀ message, (st.sticky_no_response && config.allow_no_response) = false →
      ackResult = .raisesMsg message →
      (is_ack_quirk_error message && config.assume_sent_on_ack_quirk) = false →
      (!(is_cbatt_error message) || !config.allow_no_response) = false →
      (sessionWrite config st payload ackResult).1 = ⟨true⟩) := by
  constructor
  · intro hs ha
    have hw : write_with_strategy payload config st ackResult
        = ([.writeNoAck payload], .ok ⟨.withoutResponseSticky, st, none⟩) := by
      unfold write_with_strategy
      rw [if_pos (by rw [hs, ha]; rfl : (st.sticky_no_response && config.allow_no_response) = true)]
    simp only [sessionWrite, hw]
  · intro message h1 h2 h3 h4
    subst h2
    have hw : write_with_strategy payload config st (.raisesMsg message)
        = ([.writeAck payload, .writeNoAck payload], .ok ⟨.withoutResponse, ⟨true⟩, none⟩) := by
      unfold write_with_strategy
      rw [h1, if_neg (by decide : ¬ (false = true))]
      show (if (is_ack_quirk_error message && config.assume_sent_on_ack_quirk) = true
            then _ else _) = _
      rw [if_neg (by simp [h3])]
      show (if (!(is_cbatt_error message) || !config.allow_no_response) = true
            then _ else _) = _
      rw [if_neg (by simp [h4])]
    simp only [sessionWrite, hw]

theorem c8_sticky_threaded_witness :
    sessionWrite ⟨true, true⟩ ⟨true⟩ [7] .succeeds
      = (⟨true⟩, ([.writeNoAck [7]], .ok ⟨.withoutResponseSticky, ⟨true⟩, none⟩)) :=
  (c8_sticky_threaded ⟨true, true⟩ ⟨true⟩ [7] .succeeds).1 rfl rfl

/-! ## Status polling (src/client/command_client.py, src/client/models.py) -/

def RC_SUCCESS : Nat := 0

def RC_FAILED : Nat := 3

def RC_TIMEOUT : Nat := 4

/-- Model of `RunResult` (models.py): exactly three fields. -/
structure RunResult where
  code : Nat
  message : Str
  ip : Option Str
deriving DecidableEq

/-- Model of `text.replace("\n", " | ")`. -/
def compactReplace : Str → Str
  | [] => []
  | c :: rest =>
    if c = '\n' then ' ' :: '|' :: ' ' :: compactReplace rest else c :: compactReplace rest

/-- Model of `_compact_status`: newline-free, stripped, truncated preview. -/
def _compact_status (text : Str) (limit : Nat) : Str :=
  let compact := pyStrip (compactReplace text)
  if compact.length ≤ limit then compact else compact.take limit ++ "...".data

/-- Model of `extract_final_result`.  The `PROVISION_SUCCESS` branch calls
`RunResult` with four positional arguments although the dataclass has
three fields, which raises a `TypeError` at runtime; it is modelled as
the error case. -/
def extract_final_result (code : Str) (status : Str) :
    Except Str (Option RunResult) :=
  if code = CODE_PROVISION_SUCCESS then
    .error "TypeError: RunResult takes 3 arguments but 4 were given".data
  else if code = CODE_PROVISION_FAIL ∨ code = CODE_BUSY then
    .ok (some ⟨RC_FAILED, "配网失败: ".data ++ status, none⟩)
  else .ok none

/-- Python truthiness of a JSON value, for `bool(data.get("final", False))`. -/
def jTruthy : Json → Bool
  | .jbool b => b
  | .jnull => false
  | .jint n => decide (n ≠ 0)
  | .str s => decide (s ≠ [])
  | .obj .nil => false
  | .obj (.cons _ _ _) => true
  | .arr .anil => false
  | .arr (.acons _ _) => true

def finalFlag (data : Option JFields) : Bool :=
  match data with
  | none => false
  | some fs =>
    match fs.get "final".data with
    | none => false
    | some j => jTruthy j

/-- Model of `response.text.strip() or "<empty>"`. -/
def statusOf (resp : CommandResponse) : Str :=
  if pyStrip resp.text = [] then "<empty>".data else pyStrip resp.text

/-- What one one-second read attempt of the status characteristic
produces. -/
inductive ReadEvent where
  | readTimeout
  | readError (ty : Str) (msg : Str)
  | parseErrorEvt (msg : Str)
  | response (resp : CommandResponse)

def waitMsgHard (hardT : Nat) : Str :=
  "等待超时，未收到成功/失败终态（总时长>".data ++ natDigits hardT ++ "s）".data

def waitMsgIdle (idleT : Nat) (lastStatus : Str) : Str :=
  "等待超时，连续 ".data ++ natDigits idleT ++ "s 未收到新状态（最后状态: ".data
    ++ _compact_status lastStatus 90 ++ "）".data

structure WaitState where
  t : Nat
  lastProgress : Nat
  lastStatus : Str
  lastSignature : Option (Str × Str × Bool)
  readErrors : Nat

/-- The `wait_status` polling loop over discrete one-second steps: the
`reads` function gives the result of the read performed at each elapsed
second.  The fuel only drives the recursion; the wrapper supplies more
than `hard_timeout` so the fuel case is unreachable. -/
def wait_status_go (reads : Nat → ReadEvent) (request_id : Str) (idleT : Nat) (hardT : Nat) :
    Nat → WaitState → Except Str RunResult
  | 0, _ => .error "out of fuel".data
  | fuel + 1, st =>
    if st.t ≥ hardT then .ok ⟨RC_TIMEOUT, waitMsgHard hardT, none⟩
    else if st.t - st.lastProgress ≥ idleT then
      .ok ⟨RC_TIMEOUT, waitMsgIdle idleT st.lastStatus, none⟩
    else
      match reads (st.t + 1) with
      | .readTimeout => wait_status_go reads request_id idleT hardT fuel { st with t := st.t + 1 }
      | .readError ty msg =>
        if st.readErrors + 1 ≥ 5 then
          .ok ⟨RC_FAILED, "BLE 读取失败过多: ".data ++ ty ++ ": ".data ++ msg, none⟩
        else
          wait_status_go reads request_id idleT hardT fuel
            { st with t := st.t + 1, readErrors := st.readErrors + 1 }
      | .parseErrorEvt _ =>
        wait_status_go reads request_id idleT hardT fuel { st with t := st.t + 1, readErrors := 0 }
      | .response resp =>
        if resp.request_id ≠ request_id then
          wait_status_go reads request_id idleT hardT fuel
            { st with t := st.t + 1, readErrors := 0 }
        else
          let status := statusOf resp
          let final := finalFlag resp.data
          let signature := (resp.code, status, final)
          let st2 :=
            if some signature ≠ st.lastSignature then
              (⟨st.t + 1, st.t + 1, status, some signature, 0⟩ : WaitState)
            else { st with t := st.t + 1, readErrors := 0 }
          match extract_final_result resp.code status with
          | .error e => .error e
          | .ok (some r) => if final then .ok r else wait_status_go reads request_id idleT hardT fuel st2
          | .ok none => wait_status_go reads request_id idleT hardT fuel st2

/-- Model of `wait_status`: idle timeout `max(timeout, 1)`, hard ceiling
`min(max(idle*4, idle+30), 180)`. -/
def wait_status (reads : Nat → ReadEvent) (request_id : Str) (timeout : Nat) :
    Except Str RunResult :=
  let idleT := max timeout 1
  let hardT := min (max (idleT * 4) (idleT + 30)) 180
  wait_status_go reads request_id idleT hardT (hardT + 1) ⟨0, 0, "waiting".data, none, 0⟩

/-- The heartbeat frame the C9 scenario keeps receiving. -/
def c9Resp : CommandResponse :=
  response_status "r7".data CODE_IN_PROGRESS "Connecting SSID=net".data false none

def c9Reads : Nat → ReadEvent := fun _ => ReadEvent.response c9Resp

/-- C9: a wait configured with timeout 5 (idle 5s, hard ceiling 35s) that
keeps receiving the same IN_PROGRESS status signature returns, before the
hard ceiling, a TIMEOUT result whose message quotes the idle window and
the last seen status text. -/
theorem c9_wait_status_idle_timeout :
    wait_status c9Reads "r7".data 5
      = .ok ⟨RC_TIMEOUT,
          "等待超时，连续 5s 未收到新状态（最后状态: Connecting SSID=net）".data, none⟩
    ∧ max 5 1 = 5 ∧ min (max (5 * 4) (5 + 30)) 180 = 35
    ∧ List.IsInfix "Connecting SSID=net".data
        (waitMsgIdle 5 "Connecting SSID=net".data) := by
  refine ⟨by decide, rfl, rfl, ?_⟩
  decide
